import Mathlib

/-!
Verification of the spectrum-pos submission pipeline.

A shallow embedding of the receipt submission pipeline of the spectrum-pos
repository: the wire date format helpers, the receipt normalisation and
validation performed by the input forms, and the `/api/upload-sales` route
(grouping by shift day, the external call decision logic, positional
reconciliation of per-shift results, and persistence).

Conventions used throughout the embedding:
* JS numbers are modelled as `ℚ` (the values handled here are decimal money
  amounts and integer millisecond timestamps; IEEE rounding is below the
  granularity of the verified properties).  `NaN` results are modelled as
  `Option.none`.
* JS strings are Lean `String`s; the JS falsiness of `""` and `undefined`
  is modelled by treating `""` as the absent value where the source only
  distinguishes them through truthiness.
* Millisecond instants (`Date.getTime()`) are modelled as `Int`.
-/

namespace SpectrumPos

/-! ## Characters and decimal digits

`natToDigits`/`natOfDigits` model JavaScript's decimal integer printing
(`String(n)` / template literal interpolation) and decimal digit-run reading
(`Number(s)` / `parseInt(s, 10)` on an all-digit string). -/

/-- The numeric value of a decimal digit character. -/
def digitVal (c : Char) : Nat := c.toNat - 48

/-- Fuel-driven accumulator form of decimal printing, most significant digit
first (structurally recursive so that the kernel can evaluate it). -/
def natToDigitsCore : Nat → Nat → List Char → List Char
  | 0, _, acc => acc
  | fuel + 1, n, acc =>
    if n < 10 then Char.ofNat (48 + n % 10) :: acc
    else natToDigitsCore fuel (n / 10) (Char.ofNat (48 + n % 10) :: acc)

/-- The decimal digit string of a natural number (JS `String(n)` for `n ≥ 0`). -/
def natToDigits (n : Nat) : List Char := natToDigitsCore (n + 1) n []

/-- Value of a digit run, most significant first (JS `Number`/`parseInt` on digits). -/
def natOfDigits (ds : List Char) : Nat := ds.foldl (fun a c => 10 * a + digitVal c) 0

theorem natToDigitsCore_fuel :
    ∀ f1 f2 n : Nat, ∀ acc, n < f1 → n < f2 →
      natToDigitsCore f1 n acc = natToDigitsCore f2 n acc := by
  intro f1
  induction f1 with
  | zero => intro f2 n acc h1 _; omega
  | succ f ih =>
    intro f2 n acc h1 h2
    cases f2 with
    | zero => omega
    | succ g =>
      simp only [natToDigitsCore]
      split
      · rfl
      · next h =>
        have hlt : n / 10 < n := Nat.div_lt_self (by omega) (by omega)
        exact ih _ _ _ (by omega) (by omega)

theorem natToDigitsCore_append (n : Nat) :
    ∀ acc, natToDigitsCore (n + 1) n acc = natToDigitsCore (n + 1) n [] ++ acc := by
  induction n using Nat.strong_induction_on with
  | _ n ih =>
    intro acc
    simp only [natToDigitsCore]
    split
    · simp
    · next h =>
      have hlt : n / 10 < n := Nat.div_lt_self (by omega) (by omega)
      rw [natToDigitsCore_fuel n (n / 10 + 1) (n / 10)
          (Char.ofNat (48 + n % 10) :: acc) hlt (by omega),
        natToDigitsCore_fuel n (n / 10 + 1) (n / 10)
          [Char.ofNat (48 + n % 10)] hlt (by omega),
        ih (n / 10) hlt, ih (n / 10) hlt [Char.ofNat (48 + n % 10)], List.append_assoc]
      simp

theorem natToDigits_eq (n : Nat) :
    natToDigits n = if n < 10 then [Char.ofNat (48 + n % 10)]
      else natToDigits (n / 10) ++ [Char.ofNat (48 + n % 10)] := by
  show natToDigitsCore (n + 1) n [] = _
  simp only [natToDigitsCore]
  split
  · rfl
  · next h =>
    have hlt : n / 10 < n := Nat.div_lt_self (by omega) (by omega)
    rw [natToDigitsCore_fuel n (n / 10 + 1) (n / 10)
        [Char.ofNat (48 + n % 10)] hlt (by omega),
      natToDigitsCore_append]
    rfl

theorem digit_isDigit {m : Nat} (h : m < 10) : (Char.ofNat (48 + m)).isDigit = true := by
  interval_cases m <;> decide

theorem digitVal_ofNat {m : Nat} (h : m < 10) : digitVal (Char.ofNat (48 + m)) = m := by
  interval_cases m <;> decide

theorem natToDigits_all_digits (n : Nat) : ∀ c ∈ natToDigits n, c.isDigit = true := by
  induction n using Nat.strong_induction_on with
  | _ n ih =>
    rw [natToDigits_eq]
    split
    · intro c hc
      simp only [List.mem_singleton] at hc
      subst hc
      exact digit_isDigit (Nat.mod_lt _ (by omega))
    · intro c hc
      rcases List.mem_append.mp hc with h1 | h2
      · exact ih (n / 10) (Nat.div_lt_self (by omega) (by omega)) c h1
      · simp only [List.mem_singleton] at h2
        subst h2
        exact digit_isDigit (Nat.mod_lt _ (by omega))

theorem natToDigits_ne_nil (n : Nat) : natToDigits n ≠ [] := by
  rw [natToDigits_eq]
  split <;> simp

theorem natOfDigits_append_singleton (ds : List Char) (c : Char) :
    natOfDigits (ds ++ [c]) = 10 * natOfDigits ds + digitVal c := by
  simp [natOfDigits, List.foldl_append]

theorem natOfDigits_natToDigits (n : Nat) : natOfDigits (natToDigits n) = n := by
  induction n using Nat.strong_induction_on with
  | _ n ih =>
    rw [natToDigits_eq]
    split
    · next h =>
      simp [natOfDigits, Nat.mod_eq_of_lt h, digitVal_ofNat h]
    · next h =>
      rw [natOfDigits_append_singleton,
        ih (n / 10) (Nat.div_lt_self (by omega) (by omega)),
        digitVal_ofNat (Nat.mod_lt n (by omega))]
      omega

/-! ## Small list helpers (JS `startsWith`, `includes`) -/

/-- Predicate `listStartsWith p l` : does `l` start with the pattern `p`?
Embeds JS `String.prototype.startsWith` on the character level. -/
def listStartsWith : List Char → List Char → Bool
  | [], _ => true
  | _ :: _, [] => false
  | p :: ps, c :: cs => p == c && listStartsWith ps cs

/-- Does `l` contain `sub` as a contiguous run?  Embeds JS
`String.prototype.includes` on the character level. -/
def listHasSub (sub : List Char) : List Char → Bool
  | [] => sub.isEmpty
  | c :: cs => listStartsWith sub (c :: cs) || listHasSub sub cs

/-- JS `s.includes(sub)`. -/
def jsIncludes (s sub : String) : Bool := listHasSub sub.data s.data

theorem listStartsWith_append_right {p l : List Char} (h : listStartsWith p l = true) (t : List Char) :
    listStartsWith p (l ++ t) = true := by
  induction p generalizing l with
  | nil => simp [listStartsWith]
  | cons x xs ih =>
    cases l with
    | nil => simp [listStartsWith] at h
    | cons y ys =>
      simp only [listStartsWith, Bool.and_eq_true, beq_iff_eq] at h ⊢
      exact ⟨h.1, ih h.2⟩

theorem listHasSub_of_startsWith {sub l : List Char} (h : listStartsWith sub l = true) :
    listHasSub sub l = true := by
  cases l with
  | nil =>
    cases sub with
    | nil => simp [listHasSub]
    | cons x xs => simp [listStartsWith] at h
  | cons c cs =>
    simp [listHasSub, h]

/-! ## The wire date format

The wire format is the string `/Date(<ms>)/`.

Writers (all textually identical template literals in the source):
* `csv-uploader.tsx` : ``const MS_DATE = (date: Date) => `/Date(${date.getTime()})/`;``
* `manual-form.tsx` lines 172-173 and `spreadsheet-form.tsx` lines 295-296 inline
  the same template.

Parsers:
* `parseMsDateString` (`part_003` = `data-table-columns.tsx`):
  regex `/\/Date\((-?\d+)(?:[+-]\d+)?\)\//` — negative instants supported,
  an optional signed offset suffix tolerated and discarded.
* `parseClientMsDateString` (`part_004`, `data-table.tsx`, `export-form.tsx`):
  regex `/\/Date\((\d+)(?:[+-]\d+)?\)\//` — same, without the negative sign.

`String.prototype.match` scans for the leftmost position where the regex
matches; the pattern is deterministic (the digit run is maximal, and the
optional groups are decided by the next character), so it is embedded as a
left-to-right scan (`scanForEnvelope`) with a direct envelope reader at each
candidate position (`parseEnvelope`). -/

/-- The characters of the opening envelope `/Date(`. -/
def wireOpen : List Char := ['/', 'D', 'a', 't', 'e', '(']

/-- Reads `(-?\d+)(?:[+-]\d+)?\)\/` at the head of `cs` (the characters
following `/Date(`), returning the value of the first (captured) digit run.
The optional signed suffix is consumed and discarded, exactly as in the
source regexes. `allowNeg` distinguishes the `(-?\d+)` parsers from the
`(\d+)` parsers. -/
def parseEnvelopeNat (cs : List Char) : Option Nat :=
  let ds := cs.takeWhile Char.isDigit
  let rest := cs.dropWhile Char.isDigit
  if ds = [] then none
  else if rest.take 2 = [')', '/'] then some (natOfDigits ds)
  else if rest.head? = some '+' ∨ rest.head? = some '-' then
    let ds2 := rest.tail.takeWhile Char.isDigit
    let rest2 := rest.tail.dropWhile Char.isDigit
    if ds2 = [] then none
    else if rest2.take 2 = [')', '/'] then some (natOfDigits ds)
    else none
  else none

/-- Signed envelope reader: consumes the optional leading `-` of the captured
group when `allowNeg` is set. -/
def parseEnvelope (allowNeg : Bool) (cs : List Char) : Option Int :=
  if allowNeg ∧ cs.head? = some '-' then
    (parseEnvelopeNat cs.tail).map (fun n => -(n : Int))
  else
    (parseEnvelopeNat cs).map (fun n => (n : Int))

/-- Left-to-right scan for the first position where the `/Date(...)/`
pattern matches, as performed by `String.prototype.match`. -/
def scanForEnvelope (allowNeg : Bool) : List Char → Option Int
  | [] => none
  | c :: cs =>
    if listStartsWith wireOpen (c :: cs) then
      match parseEnvelope allowNeg (cs.drop 5) with
      | some v => some v
      | none => scanForEnvelope allowNeg cs
    else scanForEnvelope allowNeg cs

/-- Parser `parseMsDateString` of `part_003` / `data-table-columns.tsx`:
parses an MS wire date string to its millisecond instant (`none` models the
`null` return).  The leading `if (!msDateString) return null` is the empty
check; `Number(match[1])` of a `-?\d+` capture is never `NaN`. -/
def parseMsDateString (s : String) : Option Int :=
  if s = "" then none
  else scanForEnvelope true s.data

/-- Parser `parseClientMsDateString` of `part_004` / `data-table.tsx` /
`export-form.tsx`: identical except the capture group is `(\d+)`. -/
def parseClientMsDateString (s : String) : Option Int :=
  if s = "" then none
  else scanForEnvelope false s.data

/-- JS decimal printing of a (possibly negative) integer instant, as used in
the writers' template literals. -/
def jsIntToString (i : Int) : List Char :=
  if i < 0 then '-' :: natToDigits i.natAbs else natToDigits i.toNat

/-- Writer `MS_DATE` of `csv-uploader.tsx` (and the identical inline templates of
`manual-form.tsx` / `spreadsheet-form.tsx`): the emitted wire string
`/Date(<ms>)/` — no timezone-offset suffix is ever written. -/
def MS_DATE (ms : Int) : String := ⟨wireOpen ++ jsIntToString ms ++ [')', '/']⟩

/-! ### Wire date lemmas -/

theorem takeWhile_append_stop {p : Char → Bool} {ds : List Char} (h : ∀ x ∈ ds, p x = true)
    {c : Char} (hc : p c = false) (t : List Char) :
    (ds ++ c :: t).takeWhile p = ds ∧ (ds ++ c :: t).dropWhile p = c :: t := by
  induction ds with
  | nil => simp [List.takeWhile_cons, List.dropWhile_cons, hc]
  | cons d dsx ih =>
    have hd := h d (by simp)
    have ih2 := ih (fun x hx => h x (by simp [hx]))
    simp [List.takeWhile_cons, List.dropWhile_cons, hd, ih2.1, ih2.2]

theorem parseEnvelopeNat_plain {ds : List Char} (hne : ds ≠ [])
    (hdig : ∀ c ∈ ds, c.isDigit = true) (t : List Char) :
    parseEnvelopeNat (ds ++ ')' :: '/' :: t) = some (natOfDigits ds) := by
  have hstop := takeWhile_append_stop (p := Char.isDigit) hdig (c := ')') (by decide) ('/' :: t)
  unfold parseEnvelopeNat
  simp only [hstop.1, hstop.2]
  rw [if_neg hne, if_pos (by simp)]

theorem parseEnvelopeNat_suffix {ds : List Char} (hne : ds ≠ [])
    (hdig : ∀ c ∈ ds, c.isDigit = true) {sgn : Char} (hsgn : sgn = '+' ∨ sgn = '-')
    {ds2 : List Char} (hne2 : ds2 ≠ []) (hdig2 : ∀ c ∈ ds2, c.isDigit = true)
    (t : List Char) :
    parseEnvelopeNat (ds ++ sgn :: (ds2 ++ ')' :: '/' :: t)) = some (natOfDigits ds) := by
  have hsgnd : Char.isDigit sgn = false := by rcases hsgn with rfl | rfl <;> decide
  have hstop := takeWhile_append_stop (p := Char.isDigit) hdig hsgnd (ds2 ++ ')' :: '/' :: t)
  have hstop2 := takeWhile_append_stop (p := Char.isDigit) hdig2 (c := ')') (by decide) ('/' :: t)
  unfold parseEnvelopeNat
  simp only [hstop.1, hstop.2]
  rw [if_neg hne]
  rw [if_neg]
  · rw [if_pos (by rcases hsgn with rfl | rfl <;> simp)]
    simp only [List.tail_cons, hstop2.1, hstop2.2]
    rw [if_neg hne2, if_pos (by simp)]
  · obtain ⟨c2, t2, ht2⟩ : ∃ c2 t2, ds2 ++ ')' :: '/' :: t = c2 :: t2 := by
      cases ds2 with
      | nil => exact ⟨')', '/' :: t, rfl⟩
      | cons a b => exact ⟨a, b ++ ')' :: '/' :: t, rfl⟩
    rw [ht2]
    intro hcontra
    have h1 : sgn = ')' := by simpa using congrArg (fun l => l.head?) hcontra
    rcases hsgn with rfl | rfl <;> simp at h1

theorem natToDigits_head_digit (n : Nat) :
    ∃ c rest, natToDigits n = c :: rest ∧ c.isDigit = true := by
  cases hd : natToDigits n with
  | nil => exact absurd hd (natToDigits_ne_nil n)
  | cons c rest =>
    exact ⟨c, rest, rfl, natToDigits_all_digits n c (by rw [hd]; simp)⟩

theorem parseEnvelope_of_digit_head (b : Bool) {c : Char} (cs : List Char)
    (hc : c.isDigit = true) :
    parseEnvelope b (c :: cs) = (parseEnvelopeNat (c :: cs)).map (fun n => (n : Int)) := by
  unfold parseEnvelope
  rw [if_neg]
  rintro ⟨-, hhead⟩
  simp only [List.head?_cons, Option.some.injEq] at hhead
  subst hhead
  exact absurd hc (by decide)

theorem parseEnvelope_neg_head (cs : List Char) :
    parseEnvelope true ('-' :: cs) = (parseEnvelopeNat cs).map (fun n => -(n : Int)) := by
  unfold parseEnvelope
  rw [if_pos ⟨rfl, rfl⟩]
  simp

theorem parseEnvelope_false_neg_head (cs : List Char) :
    parseEnvelope false ('-' :: cs) = (parseEnvelopeNat ('-' :: cs)).map (fun n => (n : Int)) := by
  unfold parseEnvelope
  rw [if_neg]
  rintro ⟨h, -⟩
  exact absurd h (by decide)

theorem scanForEnvelope_prefix (b : Bool) (tail : List Char) {v : Int}
    (h : parseEnvelope b tail = some v) :
    scanForEnvelope b (wireOpen ++ tail) = some v := by
  show scanForEnvelope b ('/' :: 'D' :: 'a' :: 't' :: 'e' :: '(' :: tail) = some v
  rw [scanForEnvelope]
  rw [if_pos (by simp [listStartsWith, wireOpen])]
  simp only [List.drop_succ_cons, List.drop_zero]
  rw [h]

theorem wireOpen_append_ne_empty (t : List Char) : (⟨wireOpen ++ t⟩ : String) ≠ "" := by
  intro h
  have : wireOpen ++ t = [] := congrArg String.data h
  simp [wireOpen] at this

theorem parseEnvelope_jsIntToString (b : Bool) (ms : Int) (hb : b = true ∨ 0 ≤ ms)
    (mid : List Char)
    (hmid : ∀ ds : List Char, ds ≠ [] → (∀ c ∈ ds, c.isDigit = true) →
      parseEnvelopeNat (ds ++ mid) = some (natOfDigits ds)) :
    parseEnvelope b (jsIntToString ms ++ mid) = some ms := by
  rcases lt_or_le ms 0 with hneg | hpos
  · have hbt : b = true := by
      rcases hb with h | h
      · exact h
      · omega
    subst hbt
    have hj : jsIntToString ms = '-' :: natToDigits ms.natAbs := by
      unfold jsIntToString; rw [if_pos hneg]
    rw [hj, List.cons_append, parseEnvelope_neg_head,
      hmid _ (natToDigits_ne_nil _) (natToDigits_all_digits _), natOfDigits_natToDigits]
    show some (-(ms.natAbs : Int)) = some ms
    congr 1
    omega
  · have hj : jsIntToString ms = natToDigits ms.toNat := by
      unfold jsIntToString; rw [if_neg (by omega)]
    obtain ⟨c, rest, hcr, hcd⟩ := natToDigits_head_digit ms.toNat
    rw [hj, hcr, List.cons_append, parseEnvelope_of_digit_head b _ hcd,
      ← List.cons_append, ← hcr,
      hmid _ (natToDigits_ne_nil _) (natToDigits_all_digits _), natOfDigits_natToDigits]
    show some ((ms.toNat : Int)) = some ms
    congr 1
    omega

/-- Round trip for the signed parser: every writer-emitted wire string parses
back to exactly the instant that was written. -/
theorem parseMsDateString_MS_DATE (ms : Int) : parseMsDateString (MS_DATE ms) = some ms := by
  unfold parseMsDateString MS_DATE
  rw [if_neg (by rw [List.append_assoc]; exact wireOpen_append_ne_empty _)]
  show scanForEnvelope true ((wireOpen ++ jsIntToString ms ++ [')', '/'])) = some ms
  rw [List.append_assoc]
  exact scanForEnvelope_prefix true _
    (parseEnvelope_jsIntToString true ms (Or.inl rfl) _
      (fun ds hne hdig => parseEnvelopeNat_plain hne hdig []))

/-- Suffix tolerance for the signed parser: an interposed signed offset
suffix is discarded, yielding the same instant as the suffix-free string. -/
theorem parseMsDateString_suffix (ms : Int) {sgn : Char} (hsgn : sgn = '+' ∨ sgn = '-')
    {ds2 : List Char} (hne2 : ds2 ≠ []) (hdig2 : ∀ c ∈ ds2, c.isDigit = true) :
    parseMsDateString ⟨wireOpen ++ jsIntToString ms ++ sgn :: (ds2 ++ [')', '/'])⟩ = some ms := by
  unfold parseMsDateString
  rw [if_neg (by rw [List.append_assoc]; exact wireOpen_append_ne_empty _)]
  show scanForEnvelope true ((wireOpen ++ jsIntToString ms ++ sgn :: (ds2 ++ [')', '/']))) = some ms
  rw [List.append_assoc]
  exact scanForEnvelope_prefix true _
    (parseEnvelope_jsIntToString true ms (Or.inl rfl) _
      (fun ds hne hdig => parseEnvelopeNat_suffix hne hdig hsgn hne2 hdig2 []))

/-- Round trip for the unsigned (`(\d+)`) client parsers, on the non-negative
instants they accept. -/
theorem parseClientMsDateString_MS_DATE (ms : Int) (hms : 0 ≤ ms) :
    parseClientMsDateString (MS_DATE ms) = some ms := by
  unfold parseClientMsDateString MS_DATE
  rw [if_neg (by rw [List.append_assoc]; exact wireOpen_append_ne_empty _)]
  show scanForEnvelope false ((wireOpen ++ jsIntToString ms ++ [')', '/'])) = some ms
  rw [List.append_assoc]
  exact scanForEnvelope_prefix false _
    (parseEnvelope_jsIntToString false ms (Or.inr hms) _
      (fun ds hne hdig => parseEnvelopeNat_plain hne hdig []))

/-- Suffix tolerance for the unsigned client parsers. -/
theorem parseClientMsDateString_suffix (ms : Int) (hms : 0 ≤ ms)
    {sgn : Char} (hsgn : sgn = '+' ∨ sgn = '-')
    {ds2 : List Char} (hne2 : ds2 ≠ []) (hdig2 : ∀ c ∈ ds2, c.isDigit = true) :
    parseClientMsDateString ⟨wireOpen ++ jsIntToString ms ++ sgn :: (ds2 ++ [')', '/'])⟩ = some ms := by
  unfold parseClientMsDateString
  rw [if_neg (by rw [List.append_assoc]; exact wireOpen_append_ne_empty _)]
  show scanForEnvelope false ((wireOpen ++ jsIntToString ms ++ sgn :: (ds2 ++ [')', '/']))) = some ms
  rw [List.append_assoc]
  exact scanForEnvelope_prefix false _
    (parseEnvelope_jsIntToString false ms (Or.inr hms) _
      (fun ds hne hdig => parseEnvelopeNat_suffix hne hdig hsgn hne2 hdig2 []))

example : parseMsDateString "/Date(123)/" = some 123 := by decide
example : parseMsDateString "/Date(-5)/" = some (-5) := by decide
example : parseMsDateString "/Date(123+0400)/" = some 123 := by decide
example : parseMsDateString "xx/Date(7)/" = some 7 := by decide
example : parseMsDateString "/Date(x)//Date(9)/" = some 9 := by decide
example : parseClientMsDateString "/Date(-5)/" = none := by decide
example : MS_DATE (-5) = "/Date(-5)/" := by decide
example : MS_DATE 123 = "/Date(123)/" := by decide

/-! ## JS number parsing (`parseFloat`) and the form-side numeric checks

`jsParseFloat` models JavaScript's `parseFloat`: skip leading whitespace,
then read the longest decimal-literal prefix (optional sign, integer digits,
optional fraction, optional well-formed exponent), ignoring any trailing
characters.  `none` models a `NaN` result.  The model covers the decimal
literals relevant to this pipeline; it does not model the `Infinity`
literal, and it computes with exact rationals rather than IEEE doubles. -/

/-- Longest decimal-literal prefix of a character list, as `parseFloat` reads
it.  Returns `none` when no digit is found (JS `NaN`).  The exact value
`sign · (int.frac) · 10^exp` is assembled as a single `mkRat`, keeping the
whole computation in integer arithmetic. -/
def parseFloatChars (cs : List Char) : Option ℚ :=
  let (sign, cs1) : Int × List Char :=
    match cs.head? with
    | some '-' => (-1, cs.tail)
    | some '+' => (1, cs.tail)
    | _ => (1, cs)
  let intPart := cs1.takeWhile Char.isDigit
  let cs2 := cs1.dropWhile Char.isDigit
  let (fracPart, cs3) : List Char × List Char :=
    if cs2.head? = some '.' then
      (cs2.tail.takeWhile Char.isDigit, cs2.tail.dropWhile Char.isDigit)
    else ([], cs2)
  if intPart = [] ∧ fracPart = [] then none
  else
    let expVal : Int :=
      if cs3.head? = some 'e' ∨ cs3.head? = some 'E' then
        let (esign, cs4) : Int × List Char :=
          match cs3.tail.head? with
          | some '-' => (-1, cs3.tail.tail)
          | some '+' => (1, cs3.tail.tail)
          | _ => (1, cs3.tail)
        let eDigits := cs4.takeWhile Char.isDigit
        if eDigits = [] then 0 else esign * (natOfDigits eDigits : Int)
      else 0
    let base : Nat := natOfDigits intPart * 10 ^ fracPart.length + natOfDigits fracPart
    some (mkRat (sign * base * 10 ^ expVal.toNat)
                (10 ^ fracPart.length * 10 ^ (-expVal).toNat))

/-- JS whitespace skipped by `parseFloat`. -/
def isJsSpace (c : Char) : Bool := c = ' ' || c = '\t' || c = '\n' || c = '\r'

/-- JS `parseFloat(s)`; `none` models `NaN`. -/
def jsParseFloat (s : String) : Option ℚ := parseFloatChars (s.data.dropWhile isJsSpace)

/-- Helper `parseSanitizedFloat` of `manual-form.tsx`: `if (!value) return NaN;
return parseFloat(value.replace(/,/g, ''))`. -/
def parseSanitizedFloat (s : String) : Option ℚ :=
  if s = "" then none
  else jsParseFloat ⟨s.data.filter (fun c => c ≠ ',')⟩

/-- The autocalculated gross of `manual-form.tsx` (lines 145-154):
`Math.max(0, total + tax)` when both `total` and `tax` parse.  (The form
renders it through `.toFixed(2)`, a 2-decimal display formatting that is the
identity on the 2-decimal money amounts this pipeline handles.) -/
def deriveGross (total tax : ℚ) : ℚ := max 0 (total + tax)

example : jsParseFloat "-5.00" = some (-5) := by decide
example : jsParseFloat "105.00" = some 105 := by decide
example : jsParseFloat "0.25" = some (mkRat 1 4) := by decide
example : jsParseFloat "abc" = none := by decide
example : jsParseFloat "" = none := by decide
example : parseSanitizedFloat "1,000.50" = some (mkRat 2001 2) := by decide

/-! ### `rowSchema` of `spreadsheet-form.tsx`

Each field check mirrors one zod chain; the refinements run only when the
base `min(1, "Required")` check passes, and each check reports the message of
its first failing rule (`none` = the field is valid). -/

/-- Check `z.string().min(1, "Required")`. -/
def checkRequired (v : String) : Option String :=
  if v.length < 1 then some "Required" else none

/-- Check `Tax: ... .refine(val => !isNaN(parseFloat(val)) && parseFloat(val) >= 0)`. -/
def checkTax (v : String) : Option String :=
  if v.length < 1 then some "Required"
  else match jsParseFloat v with
    | some q => if 0 ≤ q then none else some "Must be a non-negative number"
    | none => some "Must be a non-negative number"

/-- Check `Total: ... .refine(val => !isNaN(parseFloat(val)) && parseFloat(val) > 0)`. -/
def checkTotal (v : String) : Option String :=
  if v.length < 1 then some "Required"
  else match jsParseFloat v with
    | some q => if 0 < q then none else some "Must be a positive number"
    | none => some "Must be a positive number"

/-- Check `Type: ... .refine(v => v === "0" || v === "1")`. -/
def checkType (v : String) : Option String :=
  if v.length < 1 then some "Required"
  else if v = "0" ∨ v = "1" then none
  else some "Must be 0 or 1"

/-- Check `Gross: z.string().optional().refine(v => v === "" || !v || (v &&
!isNaN(parseFloat(v)) && parseFloat(v) >= 0))`. -/
def checkGross (v : Option String) : Option String :=
  match v with
  | none => none
  | some s =>
    if s = "" then none
    else match jsParseFloat s with
      | some q => if 0 ≤ q then none else some "Must be a non-negative number"
      | none => some "Must be a non-negative number"

/-- One pasted row, in the field order of `rowSchema`. -/
structure RowData where
  ReceiptDate : String
  ReceiptNo : String
  ShiftDay : String
  Tax : String
  Total : String
  «Type» : String
  Gross : Option String
  SaleChannel : Option String
deriving DecidableEq

/-- All field errors of one row under `rowSchema`, as `(field, message)`
pairs in schema field order. -/
def validateRow (r : RowData) : List (String × String) :=
  (match checkRequired r.ReceiptDate with | some m => [("ReceiptDate", m)] | none => []) ++
  (match checkRequired r.ReceiptNo with | some m => [("ReceiptNo", m)] | none => []) ++
  (match checkRequired r.ShiftDay with | some m => [("ShiftDay", m)] | none => []) ++
  (match checkTax r.Tax with | some m => [("Tax", m)] | none => []) ++
  (match checkTotal r.Total with | some m => [("Total", m)] | none => []) ++
  (match checkType r.«Type» with | some m => [("Type", m)] | none => []) ++
  (match checkGross r.Gross with | some m => [("Gross", m)] | none => [])

/-- The whole-form errors of `formSchema` (`retailerKey` required, 1..50
rows, every row valid), flattening row errors with their 0-based row index. -/
def validateSpreadsheetForm (retailerKey : String) (rows : List RowData) :
    List (String × String) :=
  (if retailerKey.length < 1 then [("retailerKey", "You must select a retailer.")] else []) ++
  (if rows.length < 1 then [("rows", "You must add at least one row.")]
   else if 50 < rows.length then [("rows", "You cannot submit more than 50 rows at once.")]
   else []) ++
  (rows.map validateRow).flatten

/-- Outcome of pressing submit on the spreadsheet form. -/
inductive FormSubmitOutcome where
  /-- Validation failed: `onSubmit` never runs, so no network call is made. -/
  | blocked (errors : List (String × String))
  /-- Validation passed: `onSubmit` runs and sends the rows. -/
  | submitted (retailerKey : String) (rows : List RowData)
deriving DecidableEq

/-- Library contract: `react-hook-form`'s `handleSubmit(onSubmit)` with `zodResolver(formSchema)`
(library contract): `onSubmit` — which performs the `fetch` to
`/api/upload-sales` — is invoked exactly when the schema validates. -/
def spreadsheetSubmit (retailerKey : String) (rows : List RowData) : FormSubmitOutcome :=
  match validateSpreadsheetForm retailerKey rows with
  | [] => .submitted retailerKey rows
  | e => .blocked e

/-! ## The `/api/upload-sales` route (`part_008`)

The embedding of the `POST` handler.  JS numbers arriving in the request
body are modelled as already-numeric `ℚ` values (the route's
`parseFloat(String(x))` is the identity on numbers, which is what the
repository's forms send); `createdAt: FieldValue.serverTimestamp()` is a
datastore-assigned field with no information content and is omitted from
`ReceiptFirestoreData`. -/

/-- Type `RetailerConfig` of `part_008` line 16. -/
structure RetailerConfig where
  key : String
  name : String
  mall : String
  brand : String
  unit : String
  envUserVar : String
  envPassVar : String
deriving DecidableEq

/-- Type `ClientReceiptInput` of `part_008` lines 33-43.  `Tax`/`Gross` are the
optional fields; `Type` is already parsed (`parseInt` on the forms' "0"/"1"). -/
structure ClientReceiptInput where
  ShiftDay : String
  ReceiptDate : String
  ReceiptNo : String
  Tax : Option ℚ
  Total : ℚ
  «Type» : Int
  Gross : Option ℚ
  SaleChannel : Option String
deriving DecidableEq

/-- Type `ReceiptPayloadForApi` of `part_008` line 17. -/
structure ReceiptPayloadForApi where
  Id : String
  ReceiptDate : String
  ReceiptNo : String
  Tax : ℚ
  Total : ℚ
  «Type» : Int
  Gross : Option ℚ
  SaleChannel : String
deriving DecidableEq

/-- Type `ShiftPayloadForApi` of `part_008` line 18. -/
structure ShiftPayloadForApi where
  Mall : String
  Retailer : String
  Brand : String
  Unit : String
  ShiftDay : String
  PushReceipts : List ReceiptPayloadForApi
deriving DecidableEq

/-- One entry of `PushShiftReturnResult` (`part_008` line 19; the client
components name the same shape `ShiftResultDetail`). -/
structure ShiftResultDetail where
  Asset : String
  Brand : String
  ErrorDetails : Option String
  ErrorMessage : String
  Retailer : String
  ReturnCode : String
  ShiftDay : String
  Unit : String
deriving DecidableEq

/-- Type `ExternalApiResponse` of `part_008` line 19. -/
structure ExternalApiResponse where
  PushShiftReturnResult : List ShiftResultDetail
  ResultCode : String
  ReturnError : Option String
  ReturnMessage : String
deriving DecidableEq

/-- Type `ReceiptFirestoreData` of `part_008` lines 21-31 (without the
server-assigned `createdAt`). -/
structure ReceiptFirestoreData where
  receiptId : String
  receiptNo : String
  receiptDate : String
  shiftDay : String
  total : ℚ
  tax : ℚ
  gross : Option ℚ
  type : Int
deriving DecidableEq

/-- Helper `getEnvVar` (`part_008` lines 46-50): `process.env` is modelled as a
total map where `""` stands for both an unset and an empty variable (both
are falsy, and the source distinguishes them only through `if (!value)`). -/
def getEnvVar (env : String → String) (name : String) : Except String String :=
  if env name = "" then
    .error ("Server Configuration Error: Missing required environment variable: " ++ name)
  else .ok (env name)

/-- The state of the `RETAILERS_CONFIG` environment variable as seen by
`getRetailerConfigs`:  absent/empty, a string `JSON.parse` rejects (or a
parse result that is not an array — the wrapped message is carried), or a
parsed array of config records (absent JSON fields surface as `""`, which is
what the truthiness validation checks). -/
inductive ConfigSource where
  | missing
  | unparsable (msg : String)
  | parsed (cfgs : List RetailerConfig)

/-- The truthiness validation of one config record
(`part_008` line 57, in source field order). -/
def cfgInvalid (c : RetailerConfig) : Bool :=
  c.key = "" || c.name = "" || c.envUserVar = "" || c.envPassVar = "" ||
  c.mall = "" || c.brand = "" || c.unit = ""

/-- Helper `getRetailerConfigs` (`part_008` lines 51-63).  The `forEach` structure
check throws inside the same `try`, so its message is wrapped by the catch
exactly like a JSON parse failure. -/
def getRetailerConfigs : ConfigSource → Except String (List RetailerConfig)
  | .missing =>
    .error "Server Configuration Error: RETAILERS_CONFIG environment variable is missing or empty."
  | .unparsable m =>
    .error ("Server Configuration Error: Failed to parse RETAILERS_CONFIG JSON. " ++ m)
  | .parsed cfgs =>
    match cfgs.findIdx? cfgInvalid with
    | some i =>
      .error ("Server Configuration Error: Failed to parse RETAILERS_CONFIG JSON. Invalid config structure at index " ++ toString i ++ ".")
    | none => .ok cfgs

/-- Check `receipt.ShiftDay?.startsWith('/Date(') && receipt.ReceiptDate?.startsWith('/Date(')`
(`part_008` line 92, negated there to skip). -/
def validDates (r : ClientReceiptInput) : Bool :=
  listStartsWith wireOpen r.ShiftDay.data && listStartsWith wireOpen r.ReceiptDate.data

/-- Conversion `Tax: restOfReceipt.Tax ? parseFloat(String(restOfReceipt.Tax)) : 0`
(for a numeric input, the falsy values `undefined` and `0` both yield `0`). -/
def taxForApi (t : Option ℚ) : ℚ :=
  match t with
  | none => 0
  | some q => q

/-- Conversion `Gross: restOfReceipt.Gross ? parseFloat(String(restOfReceipt.Gross)) : null`:
note that a numeric `Gross` of `0` is falsy in JS, so it maps to `null`. -/
def grossForApi (g : Option ℚ) : Option ℚ :=
  match g with
  | none => none
  | some q => if q = 0 then none else some q

/-- The `receiptForApi` projection (`part_008` lines 98-108); `id` is the
`randomUUID()` drawn for this receipt. -/
def receiptForApi (id : String) (r : ClientReceiptInput) : ReceiptPayloadForApi :=
  { Id := id
    ReceiptDate := r.ReceiptDate
    ReceiptNo := r.ReceiptNo
    Tax := taxForApi r.Tax
    Total := r.Total
    «Type» := r.«Type»
    Gross := grossForApi r.Gross
    SaleChannel := "Store-sales" }

/-- Step `apiDataByShiftDayString[k].push(r)` with on-demand creation
(`part_008` lines 109-110).  A JS object with only non-index string keys
(every key here starts with `/Date(`) enumerates in insertion order, so the
record is modelled as an association list in first-insertion order. -/
def groupInsert (m : List (String × List ReceiptPayloadForApi)) (k : String)
    (r : ReceiptPayloadForApi) : List (String × List ReceiptPayloadForApi) :=
  match m with
  | [] => [(k, [r])]
  | (k', rs) :: rest =>
    if k' = k then (k', rs ++ [r]) :: rest else (k', rs) :: groupInsert rest k r

/-- The grouping `forEach` (`part_008` lines 89-111): receipts without the
wire-date envelope are skipped (with a `console.warn`); the others draw the
next `randomUUID()` (`uuid n` is the `n`-th value the generator returns) and
are appended to their shift-day group. -/
def buildGroups (uuid : Nat → String) : Nat → List ClientReceiptInput →
    List (String × List ReceiptPayloadForApi) → List (String × List ReceiptPayloadForApi)
  | _, [], m => m
  | n, r :: rest, m =>
    if validDates r then
      buildGroups uuid (n + 1) rest (groupInsert m r.ShiftDay (receiptForApi (uuid n) r))
    else
      buildGroups uuid n rest m

/-- Step `pushReceiptShiftsForApi` (`part_008` lines 113-115): one
`ShiftPayloadForApi` per grouped entry, in entry order. -/
def pushShifts (cfg : RetailerConfig) (uuid : Nat → String)
    (receipts : List ClientReceiptInput) : List ShiftPayloadForApi :=
  (buildGroups uuid 0 receipts []).map fun e =>
    { Mall := cfg.mall, Retailer := cfg.name, Brand := cfg.brand, Unit := cfg.unit,
      ShiftDay := e.1, PushReceipts := e.2 }

/-- Projection `receiptForFirestore` (`part_008` lines 153-163): the persisted record
carries the receipt's own wire `receiptDate` and the unit's `ShiftDay`. -/
def toFirestore (shiftDay : String) (r : ReceiptPayloadForApi) : ReceiptFirestoreData :=
  { receiptId := r.Id
    receiptNo := r.ReceiptNo
    receiptDate := r.ReceiptDate
    shiftDay := shiftDay
    total := r.Total
    tax := r.Tax
    gross := r.Gross
    type := r.«Type» }

/-- The reconciliation `forEach` (`part_008` lines 142-171), iterating the
per-shift results with their index `i` against the sent units: a result at
an index beyond the sent units is ignored (`console.warn`), a unit whose
positional `ReturnCode` is not `"200"` contributes nothing, and a `"200"`
unit contributes a save for each of its receipts. -/
def reconcileFrom (units : List ShiftPayloadForApi) : Nat → List ShiftResultDetail →
    List ReceiptFirestoreData
  | _, [] => []
  | i, res :: rest =>
    (match units[i]? with
     | some u =>
       if res.ReturnCode = "200" then u.PushReceipts.map (toFirestore u.ShiftDay) else []
     | none => []) ++ reconcileFrom units (i + 1) rest

/-- The list of Firestore saves produced by reconciling `results` against
the `units` that were sent. -/
def reconcile (units : List ShiftPayloadForApi) (results : List ShiftResultDetail) :
    List ReceiptFirestoreData :=
  reconcileFrom units 0 results

/-- The external `fetch` response as the route observes it: the HTTP
success flag (`apiResponse.ok`), the status code, and `json?`, which is
`some r` when the `content-type` header advertises JSON and
`apiResponse.json()` parses to `r`.  `none` covers both a non-JSON content
type (the route's explicit `throw`) and a body `.json()` rejects (which
reaches the same outer catch with the parser's message); both produce the
same observable outcome — a thrown error, a 500 with no persistence. -/
structure ApiHttpResponse where
  ok : Bool
  status : Nat
  json? : Option ExternalApiResponse

/-- What the route returns to its caller. -/
inductive RouteResponse where
  /-- Response `NextResponse.json(result, { status })` — the parsed external result. -/
  | jsonResult (result : ExternalApiResponse) (status : Nat)
  /-- Response `NextResponse.json({ error }, { status })`. -/
  | errorMsg (error : String) (status : Nat)
deriving DecidableEq

/-- The observable outcome of one `POST` invocation: the response, whether
the external API was called, which Firestore writes were dispatched
(`attempted`, all of them are started before `Promise.all` settles), and
which of those succeeded (`persisted`). -/
structure PostOutcome where
  response : RouteResponse
  calledExternal : Bool
  attempted : List ReceiptFirestoreData
  persisted : List ReceiptFirestoreData
deriving DecidableEq

/-- The request body (`body.receipts`, `body.retailerKey`); `""` models a
missing `retailerKey` (the source tests truthiness only). -/
structure PostRequest where
  receipts? : Option (List ClientReceiptInput)
  retailerKey : String

/-- An early `return NextResponse.json({error}, {status})` before the
external call. -/
def earlyError (msg : String) (status : Nat) : PostOutcome :=
  { response := .errorMsg msg status, calledExternal := false,
    attempted := [], persisted := [] }

/-- Response processing (`part_008` lines 130-198): accept for
reconciliation when the response is JSON and `apiResponse.ok ||
result.ResultCode === "500"`; otherwise surface the failure.  `writeFails`
says which dispatched Firestore writes fail; failures are only logged
(`part_008` lines 173-187) and never change the response.  A thrown error
(`.error`) reaches the outer catch. -/
def processResponse (units : List ShiftPayloadForApi) (resp : ApiHttpResponse)
    (writeFails : ReceiptFirestoreData → Bool) (retailerKey : String) :
    Except String PostOutcome :=
  match resp.json? with
  | some result =>
    if resp.ok = true ∨ result.ResultCode = "500" then
      let saves := reconcile units result.PushShiftReturnResult
      .ok { response := .jsonResult result 200, calledExternal := true,
            attempted := saves, persisted := saves.filter (fun r => !writeFails r) }
    else
      .ok { response := .errorMsg
              (if result.ReturnMessage = "" then
                "API returned status " ++ toString resp.status ++ " and ResultCode " ++ result.ResultCode
               else result.ReturnMessage) resp.status,
            calledExternal := true, attempted := [], persisted := [] }
  | none =>
    .error ("External API for " ++ retailerKey ++ " returned a non-JSON error. Status: " ++ toString resp.status ++ ".")

/-- The outer catch's message mapping (`part_008` lines 200-206). -/
def catchMessage (m : String) : String :=
  if jsIncludes m "Server Configuration Error" then "Internal server configuration issue."
  else m

/-- The body of the `try` block of `POST` (`part_008` lines 69-198), in
source order.  `.error (m, called)` is a thrown error with the message `m`,
`called` recording whether the `fetch` had already happened. -/
def POSTcore (env : String → String) (cfgSrc : ConfigSource) (uuid : Nat → String)
    (req : PostRequest) (extResp : ApiHttpResponse)
    (writeFails : ReceiptFirestoreData → Bool) : Except (String × Bool) PostOutcome :=
  match getEnvVar env "EXTERNAL_API_URL" with
  | .error m => .error (m, false)
  | .ok _ =>
    match req.receipts? with
    | none => .ok (earlyError "No receipt data provided." 400)
    | some receipts =>
      if receipts.isEmpty then .ok (earlyError "No receipt data provided." 400)
      else if req.retailerKey = "" then .ok (earlyError "No retailer selected." 400)
      else
        match getRetailerConfigs cfgSrc with
        | .error m => .error (m, false)
        | .ok cfgs =>
          match cfgs.find? (fun c => c.key = req.retailerKey) with
          | none => .ok (earlyError ("Invalid retailer key: " ++ req.retailerKey) 400)
          | some cfg =>
            match getEnvVar env cfg.envUserVar with
            | .error m => .error (m, false)
            | .ok _ =>
              match getEnvVar env cfg.envPassVar with
              | .error m => .error (m, false)
              | .ok _ =>
                let shifts := pushShifts cfg uuid receipts
                if shifts.isEmpty then
                  .ok (earlyError "No valid receipts found after processing dates. Please check formats." 400)
                else
                  match processResponse shifts extResp writeFails req.retailerKey with
                  | .ok o => .ok o
                  | .error m => .error (m, true)

/-- The full `POST` handler: the `try` body wrapped in the outer catch
(`part_008` lines 200-206), which maps configuration errors to the generic
user-facing message and every thrown error to a 500. -/
def POST (env : String → String) (cfgSrc : ConfigSource) (uuid : Nat → String)
    (req : PostRequest) (extResp : ApiHttpResponse)
    (writeFails : ReceiptFirestoreData → Bool) : PostOutcome :=
  match POSTcore env cfgSrc uuid req extResp writeFails with
  | .ok o => o
  | .error (m, called) =>
    { response := .errorMsg (catchMessage m) 500, calledExternal := called,
      attempted := [], persisted := [] }

/-! ## Grouping lemmas -/

/-- First-match association-list lookup (`[]` when the key is absent). -/
def lookupGroup (m : List (String × List ReceiptPayloadForApi)) (k : String) :
    List ReceiptPayloadForApi :=
  match m with
  | [] => []
  | (k', rs) :: rest => if k' = k then rs else lookupGroup rest k

/-- Fold of first-occurrence key collection over an initial key list. -/
def accKeys (init : List String) (ks : List String) : List String :=
  ks.foldl (fun acc k => if k ∈ acc then acc else acc ++ [k]) init

/-- Specification-side description of the grouper's unit order (§4.3 of the
spec): the distinct shift-day strings in first-occurrence order. -/
def specFirstOccurrence (ks : List String) : List String := accKeys [] ks

/-- The receipts that survive the date check, each paired with the index of
the `randomUUID()` call it consumes (`n` = next index to draw). -/
def numberValid (n : Nat) : List ClientReceiptInput → List (Nat × ClientReceiptInput)
  | [] => []
  | r :: rest =>
    if validDates r then (n, r) :: numberValid (n + 1) rest else numberValid n rest

theorem groupInsert_keys (m : List (String × List ReceiptPayloadForApi)) (k : String)
    (r : ReceiptPayloadForApi) :
    (groupInsert m k r).map Prod.fst =
      if k ∈ m.map Prod.fst then m.map Prod.fst else m.map Prod.fst ++ [k] := by
  induction m with
  | nil => simp [groupInsert]
  | cons e rest ih =>
    obtain ⟨k', rs⟩ := e
    by_cases hk : k' = k
    · subst hk
      simp [groupInsert]
    · simp only [groupInsert, if_neg hk, List.map_cons, ih]
      have hne : ¬(k = k') := fun h => hk h.symm
      by_cases hmem : k ∈ rest.map Prod.fst
      · simp [hmem, hne]
      · simp [hmem, hne]

theorem lookupGroup_groupInsert_self (m : List (String × List ReceiptPayloadForApi))
    (k : String) (r : ReceiptPayloadForApi) :
    lookupGroup (groupInsert m k r) k = lookupGroup m k ++ [r] := by
  induction m with
  | nil => simp [groupInsert, lookupGroup]
  | cons e rest ih =>
    obtain ⟨k', rs⟩ := e
    by_cases hk : k' = k
    · subst hk
      simp [groupInsert, lookupGroup]
    · simp [groupInsert, lookupGroup, hk, ih]

theorem lookupGroup_groupInsert_ne (m : List (String × List ReceiptPayloadForApi))
    {k k' : String} (h : k' ≠ k) (r : ReceiptPayloadForApi) :
    lookupGroup (groupInsert m k r) k' = lookupGroup m k' := by
  induction m with
  | nil =>
    simp only [groupInsert, lookupGroup]
    rw [if_neg (fun hh => h hh.symm)]
  | cons e rest ih =>
    obtain ⟨k'', rs⟩ := e
    by_cases hk : k'' = k
    · subst hk
      simp only [groupInsert, if_pos rfl, lookupGroup]
      rw [if_neg (fun hh => h hh.symm), if_neg (fun hh => h hh.symm)]
    · simp only [groupInsert, if_neg hk, lookupGroup]
      by_cases h2 : k'' = k'
      · simp [h2]
      · simp [h2, ih]

theorem accKeys_cons (init : List String) (a : String) (ks : List String) :
    accKeys init (a :: ks) = accKeys (if a ∈ init then init else init ++ [a]) ks := by
  simp [accKeys, List.foldl_cons]

theorem buildGroups_keys (uuid : Nat → String) :
    ∀ (rs : List ClientReceiptInput) (n : Nat) (m : List (String × List ReceiptPayloadForApi)),
      (buildGroups uuid n rs m).map Prod.fst =
        accKeys (m.map Prod.fst) ((rs.filter validDates).map ClientReceiptInput.ShiftDay) := by
  intro rs
  induction rs with
  | nil => intro n m; simp [buildGroups, accKeys]
  | cons r rest ih =>
    intro n m
    by_cases hv : validDates r = true
    · simp only [buildGroups, if_pos hv, List.filter_cons_of_pos hv, List.map_cons,
        accKeys_cons, ih, groupInsert_keys]
    · simp only [buildGroups, if_neg hv, List.filter_cons_of_neg hv, ih]

theorem buildGroups_lookup (uuid : Nat → String) :
    ∀ (rs : List ClientReceiptInput) (n : Nat)
      (m : List (String × List ReceiptPayloadForApi)) (k : String),
      lookupGroup (buildGroups uuid n rs m) k =
        lookupGroup m k ++
          ((numberValid n rs).filter (fun p => p.2.ShiftDay = k)).map
            (fun p => receiptForApi (uuid p.1) p.2) := by
  intro rs
  induction rs with
  | nil => intro n m k; simp [buildGroups, numberValid]
  | cons r rest ih =>
    intro n m k
    by_cases hv : validDates r = true
    · have hbg : buildGroups uuid n (r :: rest) m =
          buildGroups uuid (n + 1) rest (groupInsert m r.ShiftDay (receiptForApi (uuid n) r)) := by
        simp only [buildGroups, if_pos hv]
      have hnv : numberValid n (r :: rest) = (n, r) :: numberValid (n + 1) rest := by
        simp only [numberValid, if_pos hv]
      rw [hbg, hnv, ih]
      by_cases hk : r.ShiftDay = k
      · subst hk
        rw [lookupGroup_groupInsert_self,
          List.filter_cons_of_pos (by simp), List.map_cons,
          List.append_assoc, List.singleton_append]
      · rw [lookupGroup_groupInsert_ne m (fun h => hk h.symm),
          List.filter_cons_of_neg (by simp [hk])]
    · have hbg : buildGroups uuid n (r :: rest) m = buildGroups uuid n rest m := by
        simp only [buildGroups, if_neg hv]
      have hnv : numberValid n (r :: rest) = numberValid n rest := by
        simp only [numberValid, if_neg hv]
      rw [hbg, hnv, ih]

theorem buildGroups_keys_nodup (uuid : Nat → String) :
    ∀ (rs : List ClientReceiptInput) (n : Nat)
      (m : List (String × List ReceiptPayloadForApi)),
      (m.map Prod.fst).Nodup → ((buildGroups uuid n rs m).map Prod.fst).Nodup := by
  intro rs
  induction rs with
  | nil => intro n m h; simpa [buildGroups] using h
  | cons r rest ih =>
    intro n m h
    by_cases hv : validDates r = true
    · simp only [buildGroups, if_pos hv]
      apply ih
      rw [groupInsert_keys]
      split
      · exact h
      · next hnot => simp [List.nodup_append, h, hnot]
    · simp only [buildGroups, if_neg hv]
      exact ih _ _ h

theorem lookupGroup_of_mem {m : List (String × List ReceiptPayloadForApi)}
    {k : String} {rs : List ReceiptPayloadForApi}
    (hnd : (m.map Prod.fst).Nodup) (hmem : (k, rs) ∈ m) :
    lookupGroup m k = rs := by
  induction m with
  | nil => simp at hmem
  | cons e rest ih =>
    obtain ⟨k', rs'⟩ := e
    have hnd' : k' ∉ rest.map Prod.fst ∧ (rest.map Prod.fst).Nodup := by
      rw [List.map_cons, List.nodup_cons] at hnd
      exact hnd
    rcases List.mem_cons.mp hmem with heq | htl
    · cases heq
      simp [lookupGroup]
    · have hk : k' ≠ k := by
        intro h
        subst h
        exact hnd'.1 (List.mem_map.mpr ⟨(k', rs), htl, rfl⟩)
      simp only [lookupGroup, if_neg hk]
      exact ih hnd'.2 htl

theorem numberValid_mem {n : Nat} :
    ∀ {l : List ClientReceiptInput} {j : Nat} {r : ClientReceiptInput},
      (j, r) ∈ numberValid n l → r ∈ l ∧ validDates r = true := by
  intro l
  induction l generalizing n with
  | nil => intro j r h; simp [numberValid] at h
  | cons x xs ih =>
    intro j r h
    by_cases hv : validDates x = true
    · simp only [numberValid, if_pos hv, List.mem_cons] at h
      rcases h with heq | htl
      · cases heq
        exact ⟨by simp, hv⟩
      · obtain ⟨h1, h2⟩ := ih htl
        exact ⟨List.mem_cons_of_mem _ h1, h2⟩
    · simp only [numberValid, if_neg hv] at h
      obtain ⟨h1, h2⟩ := ih h
      exact ⟨List.mem_cons_of_mem _ h1, h2⟩

theorem accKeys_mem (ks : List String) :
    ∀ (init : List String) (k : String), k ∈ accKeys init ks ↔ k ∈ init ∨ k ∈ ks := by
  induction ks with
  | nil => intro init k; simp [accKeys]
  | cons a ks ih =>
    intro init k
    rw [accKeys_cons, ih]
    by_cases ha : a ∈ init
    · rw [if_pos ha]
      constructor
      · rintro (h | h)
        · exact Or.inl h
        · exact Or.inr (List.mem_cons_of_mem _ h)
      · rintro (h | h)
        · exact Or.inl h
        · rcases List.mem_cons.mp h with rfl | h2
          · exact Or.inl ha
          · exact Or.inr h2
    · rw [if_neg ha]
      constructor
      · rintro (h | h)
        · rcases List.mem_append.mp h with h2 | h2
          · exact Or.inl h2
          · rcases List.mem_singleton.mp h2 with rfl
            exact Or.inr (by simp)
        · exact Or.inr (List.mem_cons_of_mem _ h)
      · rintro (h | h)
        · exact Or.inl (List.mem_append.mpr (Or.inl h))
        · rcases List.mem_cons.mp h with rfl | h2
          · exact Or.inl (List.mem_append.mpr (Or.inr (by simp)))
          · exact Or.inr h2

theorem accKeys_nodup (ks : List String) :
    ∀ init : List String, init.Nodup → (accKeys init ks).Nodup := by
  induction ks with
  | nil => intro init h; simpa [accKeys] using h
  | cons a ks ih =>
    intro init h
    rw [accKeys_cons]
    split
    · exact ih init h
    · next ha => exact ih _ (by simp [List.nodup_append, h, ha])

theorem buildGroups_filter (uuid : Nat → String) :
    ∀ (rs : List ClientReceiptInput) (n : Nat)
      (m : List (String × List ReceiptPayloadForApi)),
      buildGroups uuid n rs m = buildGroups uuid n (rs.filter validDates) m := by
  intro rs
  induction rs with
  | nil => intro n m; simp
  | cons r rest ih =>
    intro n m
    by_cases hv : validDates r = true
    · simp only [List.filter_cons_of_pos hv, buildGroups, if_pos hv, ih]
    · simp only [List.filter_cons_of_neg hv, buildGroups, if_neg hv, ih]

theorem pushShifts_keys (cfg : RetailerConfig) (uuid : Nat → String)
    (rs : List ClientReceiptInput) :
    (pushShifts cfg uuid rs).map ShiftPayloadForApi.ShiftDay =
      specFirstOccurrence ((rs.filter validDates).map ClientReceiptInput.ShiftDay) := by
  unfold pushShifts specFirstOccurrence
  rw [List.map_map]
  have : (ShiftPayloadForApi.ShiftDay ∘ fun e : String × List ReceiptPayloadForApi =>
      ShiftPayloadForApi.mk cfg.mall cfg.name cfg.brand cfg.unit e.1 e.2) = Prod.fst := by
    funext e
    rfl
  rw [this, buildGroups_keys]
  rfl

theorem pushShifts_mem {cfg : RetailerConfig} {uuid : Nat → String}
    {rs : List ClientReceiptInput} {s : ShiftPayloadForApi}
    (h : s ∈ pushShifts cfg uuid rs) :
    (s.ShiftDay, s.PushReceipts) ∈ buildGroups uuid 0 rs [] := by
  unfold pushShifts at h
  obtain ⟨e, he, rfl⟩ := List.mem_map.mp h
  exact he

theorem pushShifts_receipts (cfg : RetailerConfig) (uuid : Nat → String)
    (rs : List ClientReceiptInput) {s : ShiftPayloadForApi}
    (h : s ∈ pushShifts cfg uuid rs) :
    s.PushReceipts =
      ((numberValid 0 rs).filter (fun p => p.2.ShiftDay = s.ShiftDay)).map
        (fun p => receiptForApi (uuid p.1) p.2) := by
  have hmem := pushShifts_mem h
  have hnd : ((buildGroups uuid 0 rs ([] : List (String × List ReceiptPayloadForApi))).map
      Prod.fst).Nodup := buildGroups_keys_nodup uuid rs 0 [] (by simp)
  have hlook := lookupGroup_of_mem hnd hmem
  rw [← hlook, buildGroups_lookup]
  simp [lookupGroup]

/-! ## Reconciliation lemmas -/

theorem reconcileFrom_mem (units : List ShiftPayloadForApi) :
    ∀ (results : List ShiftResultDetail) (i : Nat) (fd : ReceiptFirestoreData),
      fd ∈ reconcileFrom units i results ↔
        ∃ (j : Nat) (u : ShiftPayloadForApi) (res : ShiftResultDetail),
          units[i + j]? = some u ∧ results[j]? = some res ∧
          res.ReturnCode = "200" ∧ fd ∈ u.PushReceipts.map (toFirestore u.ShiftDay) := by
  intro results
  induction results with
  | nil => intro i fd; simp [reconcileFrom]
  | cons res rest ih =>
    intro i fd
    simp only [reconcileFrom, List.mem_append, ih]
    constructor
    · rintro (hhead | ⟨j, u, r', h1, h2, h3, h4⟩)
      · cases hu : units[i]? with
        | none => simp [hu] at hhead
        | some u =>
          simp only [hu] at hhead
          by_cases hc : res.ReturnCode = "200"
          · rw [if_pos hc] at hhead
            refine ⟨0, u, res, ?_, by simp, hc, hhead⟩
            simpa using hu
          · rw [if_neg hc] at hhead
            simp at hhead
      · refine ⟨j + 1, u, r', ?_, ?_, h3, h4⟩
        · rw [show i + (j + 1) = i + 1 + j from by omega]
          exact h1
        · simpa using h2
    · rintro ⟨j, u, r', h1, h2, h3, h4⟩
      cases j with
      | zero =>
        left
        have h2' : res = r' := by simpa using h2
        subst h2'
        have h1' : units[i]? = some u := by simpa using h1
        simp only [h1', if_pos h3]
        exact h4
      | succ j' =>
        right
        refine ⟨j', u, r', ?_, ?_, h3, h4⟩
        · rw [show i + 1 + j' = i + (j' + 1) from by omega]
          exact h1
        · simpa using h2

theorem reconcile_mem (units : List ShiftPayloadForApi) (results : List ShiftResultDetail)
    (fd : ReceiptFirestoreData) :
    fd ∈ reconcile units results ↔
      ∃ (j : Nat) (u : ShiftPayloadForApi) (res : ShiftResultDetail),
        units[j]? = some u ∧ results[j]? = some res ∧
        res.ReturnCode = "200" ∧ fd ∈ u.PushReceipts.map (toFirestore u.ShiftDay) := by
  have h := reconcileFrom_mem units results 0 fd
  simpa [reconcile] using h

theorem reconcileFrom_stop (units : List ShiftPayloadForApi) :
    ∀ (results : List ShiftResultDetail) (i : Nat), units.length ≤ i →
      reconcileFrom units i results = [] := by
  intro results
  induction results with
  | nil => intro i _; rfl
  | cons res rest ih =>
    intro i h
    simp only [reconcileFrom]
    rw [List.getElem?_eq_none h]
    simp [ih (i + 1) (by omega)]

theorem reconcileFrom_take (units : List ShiftPayloadForApi) :
    ∀ (results : List ShiftResultDetail) (i : Nat),
      reconcileFrom units i results =
        reconcileFrom units i (results.take (units.length - i)) := by
  intro results
  induction results with
  | nil => intro i; simp
  | cons res rest ih =>
    intro i
    by_cases h : i < units.length
    · rw [show units.length - i = (units.length - (i + 1)) + 1 from by omega]
      simp only [List.take_succ_cons, reconcileFrom]
      rw [← ih]
    · rw [show units.length - i = 0 from by omega, List.take_zero]
      rw [reconcileFrom_stop units _ i (by omega)]
      rfl

/-- Extra result entries beyond the number of sent units never contribute. -/
theorem reconcile_take (units : List ShiftPayloadForApi) (results : List ShiftResultDetail) :
    reconcile units results = reconcile units (results.take units.length) := by
  have h := reconcileFrom_take units results 0
  simpa [reconcile] using h

/-! ## Route path lemmas -/

theorem POSTcore_after_find (env : String → String) (cfgSrc : ConfigSource)
    (uuid : Nat → String) (req : PostRequest) (extResp : ApiHttpResponse)
    (writeFails : ReceiptFirestoreData → Bool)
    {receipts : List ClientReceiptInput} {cfgs : List RetailerConfig}
    (henv : env "EXTERNAL_API_URL" ≠ "")
    (hrec : req.receipts? = some receipts) (hne : receipts ≠ [])
    (hkey : req.retailerKey ≠ "")
    (hcfg : getRetailerConfigs cfgSrc = .ok cfgs) :
    POSTcore env cfgSrc uuid req extResp writeFails =
      match cfgs.find? (fun c => c.key = req.retailerKey) with
      | none => .ok (earlyError ("Invalid retailer key: " ++ req.retailerKey) 400)
      | some cfg =>
        match getEnvVar env cfg.envUserVar with
        | .error m => .error (m, false)
        | .ok _ =>
          match getEnvVar env cfg.envPassVar with
          | .error m => .error (m, false)
          | .ok _ =>
            if (pushShifts cfg uuid receipts).isEmpty then
              .ok (earlyError "No valid receipts found after processing dates. Please check formats." 400)
            else
              match processResponse (pushShifts cfg uuid receipts) extResp writeFails req.retailerKey with
              | .ok o => .ok o
              | .error m => .error (m, true) := by
  have hie : receipts.isEmpty = false := by
    cases receipts with
    | nil => exact absurd rfl hne
    | cons a l => rfl
  unfold POSTcore
  rw [show getEnvVar env "EXTERNAL_API_URL" = .ok (env "EXTERNAL_API_URL") from by
    unfold getEnvVar; rw [if_neg henv]]
  rw [hrec]
  simp only [hie, Bool.false_eq_true, if_false, if_neg hkey, hcfg]

theorem POST_eq_fetch (env : String → String) (cfgSrc : ConfigSource)
    (uuid : Nat → String) (req : PostRequest) (extResp : ApiHttpResponse)
    (writeFails : ReceiptFirestoreData → Bool)
    {receipts : List ClientReceiptInput} {cfgs : List RetailerConfig} {cfg : RetailerConfig}
    (henv : env "EXTERNAL_API_URL" ≠ "")
    (hrec : req.receipts? = some receipts) (hne : receipts ≠ [])
    (hkey : req.retailerKey ≠ "")
    (hcfg : getRetailerConfigs cfgSrc = .ok cfgs)
    (hfind : cfgs.find? (fun c => c.key = req.retailerKey) = some cfg)
    (huser : env cfg.envUserVar ≠ "") (hpass : env cfg.envPassVar ≠ "")
    (hshifts : pushShifts cfg uuid receipts ≠ []) :
    POST env cfgSrc uuid req extResp writeFails =
      match processResponse (pushShifts cfg uuid receipts) extResp writeFails req.retailerKey with
      | .ok o => o
      | .error m =>
        { response := .errorMsg (catchMessage m) 500, calledExternal := true,
          attempted := [], persisted := [] } := by
  have hie : (pushShifts cfg uuid receipts).isEmpty = false := by
    cases hp : pushShifts cfg uuid receipts with
    | nil => exact absurd hp hshifts
    | cons a l => rfl
  unfold POST
  rw [POSTcore_after_find env cfgSrc uuid req extResp writeFails henv hrec hne hkey hcfg,
    hfind]
  dsimp only
  rw [show getEnvVar env cfg.envUserVar = .ok (env cfg.envUserVar) from by
    unfold getEnvVar; rw [if_neg huser]]
  rw [show getEnvVar env cfg.envPassVar = .ok (env cfg.envPassVar) from by
    unfold getEnvVar; rw [if_neg hpass]]
  simp only [hie, Bool.false_eq_true, if_false]
  cases processResponse (pushShifts cfg uuid receipts) extResp writeFails req.retailerKey with
  | ok o => rfl
  | error m => rfl

theorem jsIncludes_configError_startsWith (t : String)
    (h : listStartsWith "Server Configuration Error".data t.data = true) :
    jsIncludes t "Server Configuration Error" = true := by
  unfold jsIncludes
  exact listHasSub_of_startsWith h

theorem catchMessage_envVar (v : String) :
    catchMessage ("Server Configuration Error: Missing required environment variable: " ++ v) =
      "Internal server configuration issue." := by
  unfold catchMessage
  rw [jsIncludes_configError_startsWith _ ?h]
  · rfl
  case h =>
    show listStartsWith "Server Configuration Error".data
      ("Server Configuration Error: Missing required environment variable: ".data ++ v.data) = true
    exact listStartsWith_append_right (by decide) _

theorem pushShifts_empty_of_all_invalid (cfg : RetailerConfig) (uuid : Nat → String)
    {receipts : List ClientReceiptInput} (hall : ∀ r ∈ receipts, validDates r = false) :
    pushShifts cfg uuid receipts = [] := by
  unfold pushShifts
  rw [buildGroups_filter]
  have hfil : receipts.filter validDates = [] := by
    rw [List.filter_eq_nil_iff]
    intro a ha
    simp [hall a ha]
  rw [hfil]
  rfl

/-! ## Claim theorems -/

/-- C1: Reconciliation iterates the per-shift results positionally
against the sent units and persists a receipt record if and only if it comes
from a unit whose positional result has `ReturnCode = "200"`; result entries
beyond the number of sent units are ignored, and units beyond the number of
results are simply not reconciled (their position has no result entry, so the
membership characterisation excludes them). -/
theorem reconciliationPositionalExactness (units : List ShiftPayloadForApi)
    (results : List ShiftResultDetail) :
    (∀ fd : ReceiptFirestoreData,
      fd ∈ reconcile units results ↔
        ∃ (j : Nat) (u : ShiftPayloadForApi) (res : ShiftResultDetail),
          units[j]? = some u ∧ results[j]? = some res ∧
          res.ReturnCode = "200" ∧ fd ∈ u.PushReceipts.map (toFirestore u.ShiftDay))
    ∧ reconcile units results = reconcile units (results.take units.length) :=
  ⟨fun fd => reconcile_mem units results fd, reconcile_take units results⟩

/-- Witness for C1: with two units sent and results `[200, 702]`, unit 0's
receipt is persisted and unit 1's receipt is not. -/
theorem reconciliationPositionalExactness_witness :
    toFirestore "/Date(1)/" ⟨"id0", "/Date(2)/", "R1", 0, 10, 0, none, "Store-sales"⟩ ∈
      reconcile
        [⟨"M", "Ret", "B", "U", "/Date(1)/",
            [⟨"id0", "/Date(2)/", "R1", 0, 10, 0, none, "Store-sales"⟩]⟩,
         ⟨"M", "Ret", "B", "U", "/Date(3)/",
            [⟨"id1", "/Date(4)/", "R2", 0, 20, 0, none, "Store-sales"⟩]⟩]
        [⟨"A", "B", none, "", "Ret", "200", "/Date(1)/", "U"⟩,
         ⟨"A", "B", none, "", "Ret", "702", "/Date(3)/", "U"⟩]
    ∧ toFirestore "/Date(3)/" ⟨"id1", "/Date(4)/", "R2", 0, 20, 0, none, "Store-sales"⟩ ∉
      reconcile
        [⟨"M", "Ret", "B", "U", "/Date(1)/",
            [⟨"id0", "/Date(2)/", "R1", 0, 10, 0, none, "Store-sales"⟩]⟩,
         ⟨"M", "Ret", "B", "U", "/Date(3)/",
            [⟨"id1", "/Date(4)/", "R2", 0, 20, 0, none, "Store-sales"⟩]⟩]
        [⟨"A", "B", none, "", "Ret", "200", "/Date(1)/", "U"⟩,
         ⟨"A", "B", none, "", "Ret", "702", "/Date(3)/", "U"⟩] := by
  constructor
  · exact ((reconciliationPositionalExactness _ _).1 _).mpr
      ⟨0, ⟨"M", "Ret", "B", "U", "/Date(1)/",
            [⟨"id0", "/Date(2)/", "R1", 0, 10, 0, none, "Store-sales"⟩]⟩,
        ⟨"A", "B", none, "", "Ret", "200", "/Date(1)/", "U"⟩,
        by decide, by decide, by decide, by decide⟩
  · decide

/-- C3: when gross is absent, the pipeline derives it as
`max(0, total + tax)` (`manual-form.tsx`); for `total > 0`, `tax ≥ 0` this
equals `total + tax` and is non-negative, the derived value is never
negative for any inputs, the route forwards the positive derived value
unchanged in the wire payload (`grossForApi`), and the persisted record
carries exactly the wire payload's gross (`toFirestore`). -/
theorem grossDerivationClampNonNegative (total tax : ℚ) (h1 : 0 < total) (h2 : 0 ≤ tax) :
    deriveGross total tax = total + tax
    ∧ 0 ≤ deriveGross total tax
    ∧ (∀ t x : ℚ, 0 ≤ deriveGross t x)
    ∧ grossForApi (some (deriveGross total tax)) = some (total + tax)
    ∧ (∀ sd r, (toFirestore sd r).gross = r.Gross) := by
  have hsum : 0 < total + tax := by linarith
  have hd : deriveGross total tax = total + tax := max_eq_right (le_of_lt hsum)
  refine ⟨hd, by rw [hd]; linarith, fun t x => le_max_left _ _, ?_, fun sd r => rfl⟩
  rw [hd]
  unfold grossForApi
  dsimp only
  rw [if_neg (by intro h; rw [h] at hsum; exact lt_irrefl 0 hsum)]

/-- Witness for C3 at `total = 100`, `tax = 5`. -/
theorem grossDerivationClampNonNegative_witness :
    deriveGross 100 5 = 100 + 5
    ∧ 0 ≤ deriveGross 100 5
    ∧ (∀ t x : ℚ, 0 ≤ deriveGross t x)
    ∧ grossForApi (some (deriveGross 100 5)) = some (100 + 5)
    ∧ (∀ sd r, (toFirestore sd r).gross = r.Gross) :=
  grossDerivationClampNonNegative 100 5 (by norm_num) (by norm_num)

/-- C4: on a batch whose dates all carry the wire envelope, grouping
produces exactly one submission unit per distinct `ShiftDay` wire string
(the key list is duplicate-free and contains exactly the distinct input
strings), units are ordered by first occurrence of their shift-day string
(no sorting by date value — `specFirstOccurrence` is a pure first-occurrence
fold), and membership is determined by string equality on the wire string
(the `filter` below compares the raw strings, never parsed instants).
Determinism is inherent: `pushShifts` is a pure function of its inputs. -/
theorem shiftGroupingStableByWireString (cfg : RetailerConfig) (uuid : Nat → String)
    (receipts : List ClientReceiptInput)
    (hall : ∀ r ∈ receipts, validDates r = true) :
    (pushShifts cfg uuid receipts).map ShiftPayloadForApi.ShiftDay
        = specFirstOccurrence (receipts.map ClientReceiptInput.ShiftDay)
    ∧ ((pushShifts cfg uuid receipts).map ShiftPayloadForApi.ShiftDay).Nodup
    ∧ (∀ k, k ∈ (pushShifts cfg uuid receipts).map ShiftPayloadForApi.ShiftDay ↔
        k ∈ receipts.map ClientReceiptInput.ShiftDay)
    ∧ (∀ s ∈ pushShifts cfg uuid receipts,
        s.PushReceipts =
          ((numberValid 0 receipts).filter (fun p => p.2.ShiftDay = s.ShiftDay)).map
            (fun p => receiptForApi (uuid p.1) p.2)) := by
  have hfil : receipts.filter validDates = receipts := List.filter_eq_self.mpr hall
  have h1 : (pushShifts cfg uuid receipts).map ShiftPayloadForApi.ShiftDay
      = specFirstOccurrence (receipts.map ClientReceiptInput.ShiftDay) := by
    rw [pushShifts_keys, hfil]
  refine ⟨h1, ?_, ?_, ?_⟩
  · rw [h1]
    exact accKeys_nodup _ [] (by simp)
  · intro k
    rw [h1]
    unfold specFirstOccurrence
    rw [accKeys_mem]
    simp
  · intro s hs
    exact pushShifts_receipts cfg uuid receipts hs

/-- Witness for C4: three receipts spanning two shift days group into units
keyed by the two distinct wire strings in first-occurrence order. -/
theorem shiftGroupingStableByWireString_witness :
    (pushShifts ⟨"k1", "N", "M", "B", "U1", "EU", "EP"⟩ (fun _ => "u")
        [⟨"/Date(1)/", "/Date(10)/", "A", none, 10, 0, none, none⟩,
         ⟨"/Date(2)/", "/Date(11)/", "B", none, 20, 0, none, none⟩,
         ⟨"/Date(1)/", "/Date(12)/", "C", none, 30, 0, none, none⟩]).map
      ShiftPayloadForApi.ShiftDay
      = specFirstOccurrence
          ([⟨"/Date(1)/", "/Date(10)/", "A", none, 10, 0, none, none⟩,
            ⟨"/Date(2)/", "/Date(11)/", "B", none, 20, 0, none, none⟩,
            ⟨"/Date(1)/", "/Date(12)/", "C", none, 30, 0, none, none⟩].map
            ClientReceiptInput.ShiftDay) :=
  (shiftGroupingStableByWireString _ _ _ (by decide)).1

/-- C8: receipts lacking the wire-date envelope on `ShiftDay` or
`ReceiptDate` are dropped during grouping — the grouped output is exactly
the grouping of the well-formed sub-batch, every receipt appearing in a
submission unit comes from a well-formed input row, and one malformed row
does not fail the batch: as long as one well-formed receipt remains, units
are produced (so the route does not take its empty-batch 400 path). -/
theorem malformedDateRowsDroppedNotFatal (cfg : RetailerConfig) (uuid : Nat → String)
    (receipts : List ClientReceiptInput) :
    pushShifts cfg uuid receipts = pushShifts cfg uuid (receipts.filter validDates)
    ∧ (∀ s ∈ pushShifts cfg uuid receipts, ∀ p ∈ s.PushReceipts,
        ∃ (n : Nat) (r : ClientReceiptInput), r ∈ receipts ∧ validDates r = true ∧
          p = receiptForApi (uuid n) r)
    ∧ ((∃ r ∈ receipts, validDates r = true) → pushShifts cfg uuid receipts ≠ []) := by
  refine ⟨?_, ?_, ?_⟩
  · unfold pushShifts
    rw [buildGroups_filter]
  · intro s hs p hp
    rw [pushShifts_receipts cfg uuid receipts hs] at hp
    obtain ⟨⟨n, r⟩, hmem, rfl⟩ := List.mem_map.mp hp
    have hmem2 := (List.mem_filter.mp hmem).1
    obtain ⟨hr1, hr2⟩ := numberValid_mem hmem2
    exact ⟨n, r, hr1, hr2, rfl⟩
  · rintro ⟨r, hr, hv⟩ hnil
    have hkey : r.ShiftDay ∈ (pushShifts cfg uuid receipts).map ShiftPayloadForApi.ShiftDay := by
      rw [pushShifts_keys]
      unfold specFirstOccurrence
      rw [accKeys_mem]
      exact Or.inr (List.mem_map.mpr ⟨r, List.mem_filter.mpr ⟨hr, hv⟩, rfl⟩)
    rw [hnil] at hkey
    simp at hkey

/-- Witness for C8: a batch with one malformed-date row and one well-formed
row still produces units, and they equal the units of the well-formed
sub-batch alone. -/
theorem malformedDateRowsDroppedNotFatal_witness :
    pushShifts ⟨"k1", "N", "M", "B", "U1", "EU", "EP"⟩ (fun _ => "u")
        [⟨"2025-10-20", "/Date(10)/", "A", none, 10, 0, none, none⟩,
         ⟨"/Date(2)/", "/Date(11)/", "B", none, 20, 0, none, none⟩]
      = pushShifts ⟨"k1", "N", "M", "B", "U1", "EU", "EP"⟩ (fun _ => "u")
        ([⟨"2025-10-20", "/Date(10)/", "A", none, 10, 0, none, none⟩,
          ⟨"/Date(2)/", "/Date(11)/", "B", none, 20, 0, none, none⟩].filter validDates)
    ∧ pushShifts ⟨"k1", "N", "M", "B", "U1", "EU", "EP"⟩ (fun _ => "u")
        [⟨"2025-10-20", "/Date(10)/", "A", none, 10, 0, none, none⟩,
         ⟨"/Date(2)/", "/Date(11)/", "B", none, 20, 0, none, none⟩] ≠ [] :=
  ⟨(malformedDateRowsDroppedNotFatal _ _ _).1,
    (malformedDateRowsDroppedNotFatal _ _ _).2.2
      ⟨⟨"/Date(2)/", "/Date(11)/", "B", none, 20, 0, none, none⟩, by decide, by decide⟩⟩

section RouteClaims

variable (env : String → String) (cfgSrc : ConfigSource) (uuid : Nat → String)
variable (req : PostRequest) (extResp : ApiHttpResponse)
variable (writeFails : ReceiptFirestoreData → Bool)
variable {receipts : List ClientReceiptInput} {cfgs : List RetailerConfig} {cfg : RetailerConfig}

theorem POST_accepted
    (henv : env "EXTERNAL_API_URL" ≠ "")
    (hrec : req.receipts? = some receipts) (hne : receipts ≠ [])
    (hkey : req.retailerKey ≠ "")
    (hcfg : getRetailerConfigs cfgSrc = .ok cfgs)
    (hfind : cfgs.find? (fun c => c.key = req.retailerKey) = some cfg)
    (huser : env cfg.envUserVar ≠ "") (hpass : env cfg.envPassVar ≠ "")
    (hshifts : pushShifts cfg uuid receipts ≠ [])
    (r : ExternalApiResponse) (hj : extResp.json? = some r)
    (hacc : extResp.ok = true ∨ r.ResultCode = "500") :
    POST env cfgSrc uuid req extResp writeFails =
      { response := .jsonResult r 200, calledExternal := true,
        attempted := reconcile (pushShifts cfg uuid receipts) r.PushShiftReturnResult,
        persisted := (reconcile (pushShifts cfg uuid receipts) r.PushShiftReturnResult).filter
          (fun fd => !writeFails fd) } := by
  rw [POST_eq_fetch env cfgSrc uuid req extResp writeFails henv hrec hne hkey hcfg hfind
    huser hpass hshifts]
  unfold processResponse
  rw [hj]
  dsimp only
  rw [if_pos hacc]

theorem POST_rejected
    (henv : env "EXTERNAL_API_URL" ≠ "")
    (hrec : req.receipts? = some receipts) (hne : receipts ≠ [])
    (hkey : req.retailerKey ≠ "")
    (hcfg : getRetailerConfigs cfgSrc = .ok cfgs)
    (hfind : cfgs.find? (fun c => c.key = req.retailerKey) = some cfg)
    (huser : env cfg.envUserVar ≠ "") (hpass : env cfg.envPassVar ≠ "")
    (hshifts : pushShifts cfg uuid receipts ≠ [])
    (r : ExternalApiResponse) (hj : extResp.json? = some r)
    (hok : extResp.ok = false) (hrc : r.ResultCode ≠ "500") :
    POST env cfgSrc uuid req extResp writeFails =
      { response := .errorMsg
          (if r.ReturnMessage = "" then
            "API returned status " ++ toString extResp.status ++ " and ResultCode " ++ r.ResultCode
           else r.ReturnMessage) extResp.status,
        calledExternal := true, attempted := [], persisted := [] } := by
  rw [POST_eq_fetch env cfgSrc uuid req extResp writeFails henv hrec hne hkey hcfg hfind
    huser hpass hshifts]
  unfold processResponse
  rw [hj]
  dsimp only
  have hno : ¬(extResp.ok = true ∨ r.ResultCode = "500") := by
    rintro (h | h)
    · rw [hok] at h
      exact Bool.false_ne_true h
    · exact hrc h
  rw [if_neg hno]

theorem POST_nonJson
    (henv : env "EXTERNAL_API_URL" ≠ "")
    (hrec : req.receipts? = some receipts) (hne : receipts ≠ [])
    (hkey : req.retailerKey ≠ "")
    (hcfg : getRetailerConfigs cfgSrc = .ok cfgs)
    (hfind : cfgs.find? (fun c => c.key = req.retailerKey) = some cfg)
    (huser : env cfg.envUserVar ≠ "") (hpass : env cfg.envPassVar ≠ "")
    (hshifts : pushShifts cfg uuid receipts ≠ [])
    (hj : extResp.json? = none) :
    POST env cfgSrc uuid req extResp writeFails =
      { response := .errorMsg (catchMessage
          ("External API for " ++ req.retailerKey ++ " returned a non-JSON error. Status: "
            ++ toString extResp.status ++ ".")) 500,
        calledExternal := true, attempted := [], persisted := [] } := by
  rw [POST_eq_fetch env cfgSrc uuid req extResp writeFails henv hrec hne hkey hcfg hfind
    huser hpass hshifts]
  unfold processResponse
  rw [hj]

/-- C2: reconciliation (and hence any persistence) runs if and only if
the external response is JSON and either the HTTP layer reports success or
the body's `ResultCode` is the sentinel `"500"`.  Any other combination is a
hard failure with no write dispatched: a JSON body with a non-success
status and a non-sentinel code returns the body's raw `ReturnMessage` (or
the status fallback) at the upstream status, and a non-JSON response throws,
surfacing the thrown message (unchanged by the outer catch whenever it does
not contain the config-error marker) with status 500. -/
theorem responseAcceptanceGate
    (henv : env "EXTERNAL_API_URL" ≠ "")
    (hrec : req.receipts? = some receipts) (hne : receipts ≠ [])
    (hkey : req.retailerKey ≠ "")
    (hcfg : getRetailerConfigs cfgSrc = .ok cfgs)
    (hfind : cfgs.find? (fun c => c.key = req.retailerKey) = some cfg)
    (huser : env cfg.envUserVar ≠ "") (hpass : env cfg.envPassVar ≠ "")
    (hshifts : pushShifts cfg uuid receipts ≠ []) :
    ((∃ result, (POST env cfgSrc uuid req extResp writeFails).response = .jsonResult result 200) ↔
      (∃ r, extResp.json? = some r ∧ (extResp.ok = true ∨ r.ResultCode = "500")))
    ∧ (∀ r, extResp.json? = some r → (extResp.ok = true ∨ r.ResultCode = "500") →
        POST env cfgSrc uuid req extResp writeFails =
          { response := .jsonResult r 200, calledExternal := true,
            attempted := reconcile (pushShifts cfg uuid receipts) r.PushShiftReturnResult,
            persisted := (reconcile (pushShifts cfg uuid receipts) r.PushShiftReturnResult).filter
              (fun fd => !writeFails fd) })
    ∧ (∀ r, extResp.json? = some r → extResp.ok = false → r.ResultCode ≠ "500" →
        POST env cfgSrc uuid req extResp writeFails =
          { response := .errorMsg
              (if r.ReturnMessage = "" then
                "API returned status " ++ toString extResp.status ++ " and ResultCode " ++ r.ResultCode
               else r.ReturnMessage) extResp.status,
            calledExternal := true, attempted := [], persisted := [] })
    ∧ (extResp.json? = none →
        POST env cfgSrc uuid req extResp writeFails =
          { response := .errorMsg (catchMessage
              ("External API for " ++ req.retailerKey ++ " returned a non-JSON error. Status: "
                ++ toString extResp.status ++ ".")) 500,
            calledExternal := true, attempted := [], persisted := [] }) := by
  have hsome := POST_accepted env cfgSrc uuid req extResp writeFails henv hrec hne hkey hcfg
    hfind huser hpass hshifts
  have hbad := POST_rejected env cfgSrc uuid req extResp writeFails henv hrec hne hkey hcfg
    hfind huser hpass hshifts
  have hnone := POST_nonJson env cfgSrc uuid req extResp writeFails henv hrec hne hkey hcfg
    hfind huser hpass hshifts
  refine ⟨?_, fun r hj hacc => hsome r hj hacc, fun r hj hok hrc => hbad r hj hok hrc,
    fun hj => hnone hj⟩
  constructor
  · rintro ⟨result, hresp⟩
    cases hj : extResp.json? with
    | none =>
      rw [hnone hj] at hresp
      simp at hresp
    | some r =>
      by_cases hacc : extResp.ok = true ∨ r.ResultCode = "500"
      · exact ⟨r, rfl, hacc⟩
      · push_neg at hacc
        have hok : extResp.ok = false := by
          cases hb : extResp.ok
          · rfl
          · exact absurd hb hacc.1
        rw [hbad r hj hok hacc.2] at hresp
        simp at hresp
  · rintro ⟨r, hj, hacc⟩
    exact ⟨r, by rw [hsome r hj hacc]⟩

/-- C5: once the external submission is accepted for reconciliation,
local datastore write failures are invisible to the caller — for any two
failure patterns `f` and `g`, the response and the set of dispatched writes
are identical, the response is the external result with status 200, and
every reconciled write is dispatched regardless of failures. -/
theorem persistenceFailureDoesNotChangeOutcome
    (henv : env "EXTERNAL_API_URL" ≠ "")
    (hrec : req.receipts? = some receipts) (hne : receipts ≠ [])
    (hkey : req.retailerKey ≠ "")
    (hcfg : getRetailerConfigs cfgSrc = .ok cfgs)
    (hfind : cfgs.find? (fun c => c.key = req.retailerKey) = some cfg)
    (huser : env cfg.envUserVar ≠ "") (hpass : env cfg.envPassVar ≠ "")
    (hshifts : pushShifts cfg uuid receipts ≠ [])
    (r : ExternalApiResponse) (hj : extResp.json? = some r)
    (hacc : extResp.ok = true ∨ r.ResultCode = "500")
    (f g : ReceiptFirestoreData → Bool) :
    (POST env cfgSrc uuid req extResp f).response = .jsonResult r 200
    ∧ (POST env cfgSrc uuid req extResp f).attempted
        = reconcile (pushShifts cfg uuid receipts) r.PushShiftReturnResult
    ∧ (POST env cfgSrc uuid req extResp f).response = (POST env cfgSrc uuid req extResp g).response
    ∧ (POST env cfgSrc uuid req extResp f).attempted
        = (POST env cfgSrc uuid req extResp g).attempted := by
  have hf := POST_accepted env cfgSrc uuid req extResp f henv hrec hne hkey hcfg
    hfind huser hpass hshifts r hj hacc
  have hg := POST_accepted env cfgSrc uuid req extResp g henv hrec hne hkey hcfg
    hfind huser hpass hshifts r hj hacc
  rw [hf, hg]
  exact ⟨rfl, rfl, rfl, rfl⟩

/-- C6: when a resolved retailer's credential variables do not both hold
non-empty secrets, the route fails closed before any external call — no
request is sent, nothing is dispatched to the datastore, and the caller sees
only the generic `"Internal server configuration issue."` with status 500 —
whereas an unknown retailer key yields the distinct 400
`"Invalid retailer key: …"` response. -/
theorem missingCredentialFailsClosed
    (henv : env "EXTERNAL_API_URL" ≠ "")
    (hrec : req.receipts? = some receipts) (hne : receipts ≠ [])
    (hkey : req.retailerKey ≠ "")
    (hcfg : getRetailerConfigs cfgSrc = .ok cfgs) :
    (∀ cfg', cfgs.find? (fun c => c.key = req.retailerKey) = some cfg' →
      env cfg'.envUserVar = "" ∨ env cfg'.envPassVar = "" →
      POST env cfgSrc uuid req extResp writeFails =
        { response := .errorMsg "Internal server configuration issue." 500,
          calledExternal := false, attempted := [], persisted := [] })
    ∧ (cfgs.find? (fun c => c.key = req.retailerKey) = none →
      POST env cfgSrc uuid req extResp writeFails =
        { response := .errorMsg ("Invalid retailer key: " ++ req.retailerKey) 400,
          calledExternal := false, attempted := [], persisted := [] }) := by
  have hA := POSTcore_after_find env cfgSrc uuid req extResp writeFails henv hrec hne hkey hcfg
  constructor
  · intro cfg' hfind hcred
    unfold POST
    rw [hA, hfind]
    dsimp only
    by_cases hu : env cfg'.envUserVar = ""
    · rw [show getEnvVar env cfg'.envUserVar =
          .error ("Server Configuration Error: Missing required environment variable: "
            ++ cfg'.envUserVar) from by unfold getEnvVar; rw [if_pos hu]]
      dsimp only
      rw [catchMessage_envVar]
    · have hp : env cfg'.envPassVar = "" := hcred.resolve_left hu
      rw [show getEnvVar env cfg'.envUserVar = .ok (env cfg'.envUserVar) from by
        unfold getEnvVar; rw [if_neg hu]]
      dsimp only
      rw [show getEnvVar env cfg'.envPassVar =
          .error ("Server Configuration Error: Missing required environment variable: "
            ++ cfg'.envPassVar) from by unfold getEnvVar; rw [if_pos hp]]
      dsimp only
      rw [catchMessage_envVar]
  · intro hfind
    unfold POST
    rw [hA, hfind]
    rfl

/-- C10: a non-empty batch in which every receipt lacks the wire-date
envelope yields zero submission units, and the route returns the 400
`"No valid receipts found…"` client error without calling the external API
or dispatching any write. -/
theorem allDatesInvalidRejected400
    (henv : env "EXTERNAL_API_URL" ≠ "")
    (hrec : req.receipts? = some receipts) (hne : receipts ≠ [])
    (hkey : req.retailerKey ≠ "")
    (hcfg : getRetailerConfigs cfgSrc = .ok cfgs)
    (hfind : cfgs.find? (fun c => c.key = req.retailerKey) = some cfg)
    (huser : env cfg.envUserVar ≠ "") (hpass : env cfg.envPassVar ≠ "")
    (hall : ∀ r ∈ receipts, validDates r = false) :
    POST env cfgSrc uuid req extResp writeFails =
      { response := .errorMsg
          "No valid receipts found after processing dates. Please check formats." 400,
        calledExternal := false, attempted := [], persisted := [] } := by
  have hA := POSTcore_after_find env cfgSrc uuid req extResp writeFails henv hrec hne hkey hcfg
  unfold POST
  rw [hA, hfind]
  dsimp only
  rw [show getEnvVar env cfg.envUserVar = .ok (env cfg.envUserVar) from by
    unfold getEnvVar; rw [if_neg huser]]
  dsimp only
  rw [show getEnvVar env cfg.envPassVar = .ok (env cfg.envPassVar) from by
    unfold getEnvVar; rw [if_neg hpass]]
  dsimp only
  rw [pushShifts_empty_of_all_invalid cfg uuid hall]
  rfl

end RouteClaims

/-- C9: the writers emit exactly `/Date(<ms>)/` with no timezone-offset
suffix; parsing an emitted string with the wire-date parser recovers exactly
the written instant (for every integer instant, negatives included); and a
string carrying a signed numeric offset suffix parses to the same instant as
the suffix-free string.  The unsigned client-side parser variant
(`parseClientMsDateString`) tolerates the suffix in the same way on the
non-negative instants it accepts. -/
theorem wireDateRoundTripAndSuffixTolerance (ms : Int) (sgn : Char) (ds : List Char)
    (hsgn : sgn = '+' ∨ sgn = '-') (hne : ds ≠ []) (hdig : ∀ c ∈ ds, c.isDigit = true) :
    (MS_DATE ms).data = wireOpen ++ jsIntToString ms ++ [')', '/']
    ∧ parseMsDateString (MS_DATE ms) = some ms
    ∧ parseMsDateString ⟨wireOpen ++ jsIntToString ms ++ sgn :: (ds ++ [')', '/'])⟩ = some ms
    ∧ (0 ≤ ms →
        parseClientMsDateString (MS_DATE ms) = some ms
        ∧ parseClientMsDateString ⟨wireOpen ++ jsIntToString ms ++ sgn :: (ds ++ [')', '/'])⟩
            = some ms) :=
  ⟨rfl, parseMsDateString_MS_DATE ms, parseMsDateString_suffix ms hsgn hne hdig,
    fun hms => ⟨parseClientMsDateString_MS_DATE ms hms,
      parseClientMsDateString_suffix ms hms hsgn hne hdig⟩⟩

/-- Witness for C2 at a concrete sentinel-path response: HTTP failure status
with body `ResultCode = "500"` — the response is still accepted for
reconciliation. -/
theorem responseAcceptanceGate_witness :
    (∃ result,
      (POST
        (fun name => if name = "EXTERNAL_API_URL" then "https://api.example"
          else if name = "EU" then "user" else if name = "EP" then "pass" else "")
        (ConfigSource.parsed [⟨"k1", "N", "M", "B", "U1", "EU", "EP"⟩]) (fun _ => "u")
        ⟨some [⟨"/Date(1)/", "/Date(2)/", "A", none, 10, 0, none, none⟩], "k1"⟩
        ⟨false, 500, some ⟨[⟨"A", "B", none, "", "N", "200", "/Date(1)/", "U1"⟩], "500", none, "partial"⟩⟩
        (fun _ => false)).response = .jsonResult result 200) ↔
    (∃ r, (ApiHttpResponse.mk false 500
        (some ⟨[⟨"A", "B", none, "", "N", "200", "/Date(1)/", "U1"⟩], "500", none, "partial"⟩)).json?
          = some r ∧
      ((ApiHttpResponse.mk false 500
        (some ⟨[⟨"A", "B", none, "", "N", "200", "/Date(1)/", "U1"⟩], "500", none, "partial"⟩)).ok = true
        ∨ r.ResultCode = "500")) :=
  (responseAcceptanceGate
    (fun name => if name = "EXTERNAL_API_URL" then "https://api.example"
      else if name = "EU" then "user" else if name = "EP" then "pass" else "")
    (ConfigSource.parsed [⟨"k1", "N", "M", "B", "U1", "EU", "EP"⟩]) (fun _ => "u")
    ⟨some [⟨"/Date(1)/", "/Date(2)/", "A", none, 10, 0, none, none⟩], "k1"⟩
    ⟨false, 500, some ⟨[⟨"A", "B", none, "", "N", "200", "/Date(1)/", "U1"⟩], "500", none, "partial"⟩⟩
    (fun _ => false)
    (by decide) rfl (by decide) (by decide) rfl rfl (by decide) (by decide) (by decide)).1

/-- Witness for C5: with an all-fail and a no-fail write pattern, the
response is the external result with status 200 in both cases and does not
depend on the pattern. -/
theorem persistenceFailureDoesNotChangeOutcome_witness :
    (POST
      (fun name => if name = "EXTERNAL_API_URL" then "https://api.example"
        else if name = "EU" then "user" else if name = "EP" then "pass" else "")
      (ConfigSource.parsed [⟨"k1", "N", "M", "B", "U1", "EU", "EP"⟩]) (fun _ => "u")
      ⟨some [⟨"/Date(1)/", "/Date(2)/", "A", none, 10, 0, none, none⟩], "k1"⟩
      ⟨false, 500, some ⟨[⟨"A", "B", none, "", "N", "200", "/Date(1)/", "U1"⟩], "500", none, "partial"⟩⟩
      (fun _ => true)).response
      = .jsonResult ⟨[⟨"A", "B", none, "", "N", "200", "/Date(1)/", "U1"⟩], "500", none, "partial"⟩ 200
    ∧ (POST
      (fun name => if name = "EXTERNAL_API_URL" then "https://api.example"
        else if name = "EU" then "user" else if name = "EP" then "pass" else "")
      (ConfigSource.parsed [⟨"k1", "N", "M", "B", "U1", "EU", "EP"⟩]) (fun _ => "u")
      ⟨some [⟨"/Date(1)/", "/Date(2)/", "A", none, 10, 0, none, none⟩], "k1"⟩
      ⟨false, 500, some ⟨[⟨"A", "B", none, "", "N", "200", "/Date(1)/", "U1"⟩], "500", none, "partial"⟩⟩
      (fun _ => true)).response
      = (POST
      (fun name => if name = "EXTERNAL_API_URL" then "https://api.example"
        else if name = "EU" then "user" else if name = "EP" then "pass" else "")
      (ConfigSource.parsed [⟨"k1", "N", "M", "B", "U1", "EU", "EP"⟩]) (fun _ => "u")
      ⟨some [⟨"/Date(1)/", "/Date(2)/", "A", none, 10, 0, none, none⟩], "k1"⟩
      ⟨false, 500, some ⟨[⟨"A", "B", none, "", "N", "200", "/Date(1)/", "U1"⟩], "500", none, "partial"⟩⟩
      (fun _ => false)).response :=
  ⟨(persistenceFailureDoesNotChangeOutcome
      (fun name => if name = "EXTERNAL_API_URL" then "https://api.example"
        else if name = "EU" then "user" else if name = "EP" then "pass" else "")
      (ConfigSource.parsed [⟨"k1", "N", "M", "B", "U1", "EU", "EP"⟩]) (fun _ => "u")
      ⟨some [⟨"/Date(1)/", "/Date(2)/", "A", none, 10, 0, none, none⟩], "k1"⟩
      ⟨false, 500, some ⟨[⟨"A", "B", none, "", "N", "200", "/Date(1)/", "U1"⟩], "500", none, "partial"⟩⟩
      (by decide) rfl (by decide) (by decide) rfl rfl (by decide) (by decide) (by decide)
      _ rfl (Or.inr rfl) (fun _ => true) (fun _ => false)).1,
    (persistenceFailureDoesNotChangeOutcome
      (fun name => if name = "EXTERNAL_API_URL" then "https://api.example"
        else if name = "EU" then "user" else if name = "EP" then "pass" else "")
      (ConfigSource.parsed [⟨"k1", "N", "M", "B", "U1", "EU", "EP"⟩]) (fun _ => "u")
      ⟨some [⟨"/Date(1)/", "/Date(2)/", "A", none, 10, 0, none, none⟩], "k1"⟩
      ⟨false, 500, some ⟨[⟨"A", "B", none, "", "N", "200", "/Date(1)/", "U1"⟩], "500", none, "partial"⟩⟩
      (by decide) rfl (by decide) (by decide) rfl rfl (by decide) (by decide) (by decide)
      _ rfl (Or.inr rfl) (fun _ => true) (fun _ => false)).2.2.1⟩

/-- Witness for C6: with the retailer's credential variables unset the route
returns the generic configuration error without calling the external API,
while an unknown retailer key returns the distinct 400 message. -/
theorem missingCredentialFailsClosed_witness :
    POST (fun name => if name = "EXTERNAL_API_URL" then "https://api.example" else "")
      (ConfigSource.parsed [⟨"k1", "N", "M", "B", "U1", "EU", "EP"⟩]) (fun _ => "u")
      ⟨some [⟨"/Date(1)/", "/Date(2)/", "A", none, 10, 0, none, none⟩], "k1"⟩
      ⟨true, 200, none⟩ (fun _ => false) =
      { response := .errorMsg "Internal server configuration issue." 500,
        calledExternal := false, attempted := [], persisted := [] }
    ∧ POST (fun name => if name = "EXTERNAL_API_URL" then "https://api.example" else "")
      (ConfigSource.parsed [⟨"k1", "N", "M", "B", "U1", "EU", "EP"⟩]) (fun _ => "u")
      ⟨some [⟨"/Date(1)/", "/Date(2)/", "A", none, 10, 0, none, none⟩], "zz"⟩
      ⟨true, 200, none⟩ (fun _ => false) =
      { response := .errorMsg ("Invalid retailer key: " ++ "zz") 400,
        calledExternal := false, attempted := [], persisted := [] } :=
  ⟨(missingCredentialFailsClosed
      (fun name => if name = "EXTERNAL_API_URL" then "https://api.example" else "")
      (ConfigSource.parsed [⟨"k1", "N", "M", "B", "U1", "EU", "EP"⟩]) (fun _ => "u")
      ⟨some [⟨"/Date(1)/", "/Date(2)/", "A", none, 10, 0, none, none⟩], "k1"⟩
      ⟨true, 200, none⟩ (fun _ => false)
      (by decide) rfl (by decide) (by decide) rfl).1
      ⟨"k1", "N", "M", "B", "U1", "EU", "EP"⟩ rfl (Or.inl rfl),
    (missingCredentialFailsClosed
      (fun name => if name = "EXTERNAL_API_URL" then "https://api.example" else "")
      (ConfigSource.parsed [⟨"k1", "N", "M", "B", "U1", "EU", "EP"⟩]) (fun _ => "u")
      ⟨some [⟨"/Date(1)/", "/Date(2)/", "A", none, 10, 0, none, none⟩], "zz"⟩
      ⟨true, 200, none⟩ (fun _ => false)
      (by decide) rfl (by decide) (by decide) rfl).2 rfl⟩

/-- Witness for C10: a batch whose only receipt has non-wire dates is
rejected with the 400 message, no external call, no writes. -/
theorem allDatesInvalidRejected400_witness :
    POST
      (fun name => if name = "EXTERNAL_API_URL" then "https://api.example"
        else if name = "EU" then "user" else if name = "EP" then "pass" else "")
      (ConfigSource.parsed [⟨"k1", "N", "M", "B", "U1", "EU", "EP"⟩]) (fun _ => "u")
      ⟨some [⟨"2025-10-20", "2025-10-20", "A", none, 10, 0, none, none⟩], "k1"⟩
      ⟨true, 200, none⟩ (fun _ => false) =
      { response := .errorMsg
          "No valid receipts found after processing dates. Please check formats." 400,
        calledExternal := false, attempted := [], persisted := [] } :=
  allDatesInvalidRejected400
    (fun name => if name = "EXTERNAL_API_URL" then "https://api.example"
      else if name = "EU" then "user" else if name = "EP" then "pass" else "")
    (ConfigSource.parsed [⟨"k1", "N", "M", "B", "U1", "EU", "EP"⟩]) (fun _ => "u")
    ⟨some [⟨"2025-10-20", "2025-10-20", "A", none, 10, 0, none, none⟩], "k1"⟩
    ⟨true, 200, none⟩ (fun _ => false)
    (by decide) rfl (by decide) (by decide) rfl rfl (by decide) (by decide) (by decide)

/-! ### Form validation lemmas (C7) -/

theorem validateRow_nil_checks {r : RowData} (h : validateRow r = []) :
    checkTotal r.Total = none ∧ checkTax r.Tax = none ∧ checkGross r.Gross = none := by
  unfold validateRow at h
  obtain ⟨h, h7⟩ := List.append_eq_nil.mp h
  obtain ⟨h, -⟩ := List.append_eq_nil.mp h
  obtain ⟨h, h5⟩ := List.append_eq_nil.mp h
  obtain ⟨-, h4⟩ := List.append_eq_nil.mp h
  refine ⟨?_, ?_, ?_⟩
  · cases hm : checkTotal r.Total with
    | none => rfl
    | some m => rw [hm] at h5; simp at h5
  · cases hm : checkTax r.Tax with
    | none => rfl
    | some m => rw [hm] at h4; simp at h4
  · cases hm : checkGross r.Gross with
    | none => rfl
    | some m => rw [hm] at h7; simp at h7

theorem checkTotal_none {v : String} (h : checkTotal v = none) :
    ∃ t, jsParseFloat v = some t ∧ 0 < t := by
  unfold checkTotal at h
  split at h
  · exact absurd h (by simp)
  · cases hp : jsParseFloat v with
    | none => rw [hp] at h; simp at h
    | some q =>
      rw [hp] at h
      dsimp only at h
      by_cases h0 : 0 < q
      · exact ⟨q, rfl, h0⟩
      · rw [if_neg h0] at h
        simp at h

theorem checkTax_none {v : String} (h : checkTax v = none) :
    ∃ x, jsParseFloat v = some x ∧ 0 ≤ x := by
  unfold checkTax at h
  split at h
  · exact absurd h (by simp)
  · cases hp : jsParseFloat v with
    | none => rw [hp] at h; simp at h
    | some q =>
      rw [hp] at h
      dsimp only at h
      by_cases h0 : 0 ≤ q
      · exact ⟨q, rfl, h0⟩
      · rw [if_neg h0] at h
        simp at h

theorem checkGross_none {v : Option String} (h : checkGross v = none)
    {g : String} (hg : v = some g) (hne : g ≠ "") :
    ∃ q, jsParseFloat g = some q ∧ 0 ≤ q := by
  subst hg
  unfold checkGross at h
  dsimp only at h
  rw [if_neg hne] at h
  cases hp : jsParseFloat g with
  | none => rw [hp] at h; simp at h
  | some q =>
    rw [hp] at h
    dsimp only at h
    by_cases h0 : 0 ≤ q
    · exact ⟨q, rfl, h0⟩
    · rw [if_neg h0] at h
      simp at h

theorem spreadsheetSubmit_blocked {key : String} {rows : List RowData} {r : RowData}
    (hr : r ∈ rows) (hv : validateRow r ≠ []) :
    ∃ errs, spreadsheetSubmit key rows = .blocked errs := by
  have hnil : validateSpreadsheetForm key rows ≠ [] := by
    intro he
    unfold validateSpreadsheetForm at he
    obtain ⟨-, h3⟩ := List.append_eq_nil.mp he
    rw [List.flatten_eq_nil_iff] at h3
    exact hv (h3 (validateRow r) (List.mem_map.mpr ⟨r, hr, rfl⟩))
  unfold spreadsheetSubmit
  cases he : validateSpreadsheetForm key rows with
  | cons a l => exact ⟨a :: l, rfl⟩
  | nil => exact absurd he hnil

/-- C7: a pasted row with `Total = "-5.00"` produces the `rowSchema`
validation error `"Must be a positive number"` on the `Total` field; any row
with a non-empty error list blocks the form's submit handler, so the
`fetch` to the upload route is never made; and in general a row that passes
validation has `total > 0`, `tax ≥ 0`, and — when supplied and non-blank —
`gross ≥ 0`. -/
theorem negativeTotalValidationError :
    ("Total", "Must be a positive number") ∈ validateRow
      ⟨"20 Oct 2025 02:30 PM", "R-1", "20 Oct 2025 09:00 AM", "0.25", "-5.00", "0", none, none⟩
    ∧ (∀ (key : String) (rows : List RowData) (r : RowData), r ∈ rows → validateRow r ≠ [] →
        ∃ errs, spreadsheetSubmit key rows = .blocked errs)
    ∧ (∀ r : RowData, validateRow r = [] →
        (∃ t, jsParseFloat r.Total = some t ∧ 0 < t)
        ∧ (∃ x, jsParseFloat r.Tax = some x ∧ 0 ≤ x)
        ∧ (∀ g, r.Gross = some g → g ≠ "" → ∃ q, jsParseFloat g = some q ∧ 0 ≤ q)) := by
  refine ⟨by decide, fun key rows r hr hv => spreadsheetSubmit_blocked hr hv, fun r h => ?_⟩
  obtain ⟨hTot, hTax, hGr⟩ := validateRow_nil_checks h
  exact ⟨checkTotal_none hTot, checkTax_none hTax,
    fun g hg hge => checkGross_none hGr hg hge⟩

/-- Witness for C7: submitting the one-row batch with `Total = "-5.00"` is
blocked by validation (no network call is made). -/
theorem negativeTotalValidationError_witness :
    ∃ errs, spreadsheetSubmit "retailer1"
      [⟨"20 Oct 2025 02:30 PM", "R-1", "20 Oct 2025 09:00 AM", "0.25", "-5.00", "0", none, none⟩]
      = .blocked errs :=
  negativeTotalValidationError.2.1 "retailer1" _
    ⟨"20 Oct 2025 02:30 PM", "R-1", "20 Oct 2025 09:00 AM", "0.25", "-5.00", "0", none, none⟩
    (by decide) (by decide)

/-- Witness for C9 at `ms = 123` with suffix `+0400`. -/
theorem wireDateRoundTripAndSuffixTolerance_witness :
    (MS_DATE 123).data = wireOpen ++ jsIntToString 123 ++ [')', '/']
    ∧ parseMsDateString (MS_DATE 123) = some 123
    ∧ parseMsDateString ⟨wireOpen ++ jsIntToString 123 ++ '+' :: (['0', '4', '0', '0'] ++ [')', '/'])⟩ = some 123
    ∧ (0 ≤ (123 : Int) →
        parseClientMsDateString (MS_DATE 123) = some 123
        ∧ parseClientMsDateString
            ⟨wireOpen ++ jsIntToString 123 ++ '+' :: (['0', '4', '0', '0'] ++ [')', '/'])⟩
            = some 123) :=
  wireDateRoundTripAndSuffixTolerance 123 '+' ['0', '4', '0', '0']
    (Or.inl rfl) (by decide) (by decide)

end SpectrumPos
